import Mathlib

/-!
# camel-k: build monitor action and service trait

A shallow embedding of

* `pkg/controller/build/monitor_pod.go` (`monitorPodAction.CanHandle`, `monitorPodAction.Handle`),
* `pkg/trait/service.go` (`serviceTrait.Configure`, `serviceTrait.Apply`, `getServiceFor`),
* the Dependencies trait exercised by `pkg/trait/dependencies_test.go`, whose own source file
  is outside this source tree and is modelled from the specification,

together with the theorems that settle the specification's statements about them.

Go pointers to mutable objects are modelled by explicit state passing: a function that
receives `*Build` or `*Environment` returns the state of that object after the call next to
its Go return values.  Go `string`-typed enumerations stay strings.
-/

set_option linter.dupNamespace false

namespace CamelK

/-! ## Kubernetes and API constants -/

/-- Go `error` values: a machine readable reason and the text returned by `Error()`. -/
structure GoError where
  Reason : String
  Message : String
  deriving DecidableEq, Repr

/-- The text of an error, Go's `err.Error()`. -/
def GoError.Error (err : GoError) : String := err.Message

/-- The `k8serrors.IsNotFound` test: the status reason of the error is `NotFound`. -/
def IsNotFound (err : GoError) : Bool := err.Reason == "NotFound"

/-- The type `v1alpha1.BuildPhase`, a Go string type. -/
abbrev BuildPhase := String

/-- Modelled from the spec: the constant `v1alpha1.BuildPhaseScheduling` (declared outside
this source tree), phase `Scheduling` of the build state machine. -/
def BuildPhaseScheduling : BuildPhase := "Scheduling"

/-- Modelled from the spec: the constant `v1alpha1.BuildPhasePending`, phase `Pending`. -/
def BuildPhasePending : BuildPhase := "Pending"

/-- Modelled from the spec: the constant `v1alpha1.BuildPhaseRunning`, phase `Running`. -/
def BuildPhaseRunning : BuildPhase := "Running"

/-- Modelled from the spec: the constant `v1alpha1.BuildPhaseSucceeded`, phase `Succeeded`. -/
def BuildPhaseSucceeded : BuildPhase := "Succeeded"

/-- Modelled from the spec: the constant `v1alpha1.BuildPhaseFailed`, phase `Failed`. -/
def BuildPhaseFailed : BuildPhase := "Failed"

/-- The zero value of `BuildPhase`: what `var buildPhase v1alpha1.BuildPhase` holds. -/
def BuildPhaseZero : BuildPhase := ""

/-- The type `corev1.PodPhase`, a Go string type. -/
abbrev PodPhase := String

/-- The constant `corev1.PodPending`. -/
def PodPending : PodPhase := "Pending"

/-- The constant `corev1.PodRunning`. -/
def PodRunning : PodPhase := "Running"

/-- The constant `corev1.PodSucceeded`. -/
def PodSucceeded : PodPhase := "Succeeded"

/-- The constant `corev1.PodFailed`. -/
def PodFailed : PodPhase := "Failed"

/-- The constant `corev1.PodUnknown`. -/
def PodUnknown : PodPhase := "Unknown"

/-- The type `v1alpha1.IntegrationPlatformBuildStrategy`, a Go string type. -/
abbrev IntegrationPlatformBuildStrategy := String

/-- Modelled from the spec: the constant `v1alpha1.IntegrationPlatformBuildStrategyPod`,
the pod-based build strategy. -/
def IntegrationPlatformBuildStrategyPod : IntegrationPlatformBuildStrategy := "pod"

/-- Modelled from the spec: the constant `v1alpha1.IntegrationPlatformBuildStrategyRoutine`,
the in-process build strategy. -/
def IntegrationPlatformBuildStrategyRoutine : IntegrationPlatformBuildStrategy := "routine"

/-! ## Build monitor: data -/

/-- The part of `metav1.ObjectMeta` the monitor reads. -/
structure ObjectMeta where
  Name : String
  Namespace : String
  deriving DecidableEq, Repr

/-- The field `build.Spec.Platform.Build`. -/
structure IntegrationPlatformBuildSpec where
  BuildStrategy : IntegrationPlatformBuildStrategy
  deriving DecidableEq, Repr

/-- The field `build.Spec.Platform`. -/
structure IntegrationPlatformSpec where
  Build : IntegrationPlatformBuildSpec
  deriving DecidableEq, Repr

/-- The type `v1alpha1.BuildSpec`: the metadata the pod name is derived from and the platform. -/
structure BuildSpec where
  Meta : ObjectMeta
  Platform : IntegrationPlatformSpec
  deriving DecidableEq, Repr

/-- The type `v1alpha1.BuildStatus`. -/
structure BuildStatus where
  Phase : BuildPhase
  deriving DecidableEq, Repr

/-- The type `v1alpha1.Build`. -/
structure Build where
  Namespace : String
  Name : String
  Spec : BuildSpec
  Status : BuildStatus
  deriving DecidableEq, Repr

/-- The type `corev1.PodStatus`. -/
structure PodStatus where
  Phase : PodPhase
  deriving DecidableEq, Repr

/-- The type `corev1.Pod`. -/
structure Pod where
  Status : PodStatus
  deriving DecidableEq, Repr

/-- The value `corev1.Pod{}` that `Handle` allocates before the lookup. -/
def Pod.zero : Pod := { Status := { Phase := "" } }

/-- Outcome of `client.Get(ctx, key, pod)`: the contents of the object `pod` points to once
the call is over, and the returned error (`none` is Go's `nil`). -/
structure GetResult where
  pod : Pod
  err : Option GoError
  deriving DecidableEq, Repr

/-- The pod lookup of the cluster client: namespace and name to the outcome of `Get`. -/
abbrev Client := String → String → GetResult

/-- The type `monitorPodAction`; its `baseAction` carries the client. -/
structure monitorPodAction where
  client : Client

/-- What `Handle` leaves behind: the state of the build object it was given a pointer to,
whether the returned pointer is that build (`false` is a `nil` return), and the error. -/
structure HandleResult where
  build : Build
  returned : Bool
  err : Option GoError
  deriving DecidableEq, Repr

/-- The build `Handle` outputs: the object behind the returned pointer, `none` for `nil`. -/
def HandleResult.output (r : HandleResult) : Option Build :=
  if r.returned then some r.build else none

/-! ## Build monitor: operations -/

/-- The method `monitorPodAction.Name`. -/
def monitorPodAction.Name (_action : monitorPodAction) : String := "monitor-pod"

/-- The method `monitorPodAction.CanHandle`. -/
def monitorPodAction.CanHandle (_action : monitorPodAction) (build : Build) : Bool :=
  (build.Status.Phase == BuildPhasePending ||
    build.Status.Phase == BuildPhaseRunning) &&
    build.Spec.Platform.Build.BuildStrategy == IntegrationPlatformBuildStrategyPod

/-- The `switch pod.Status.Phase` of `Handle`, starting from the zero value of `buildPhase`. -/
def podBuildPhase (pod : Pod) : BuildPhase :=
  if pod.Status.Phase == PodSucceeded then BuildPhaseSucceeded
  else if pod.Status.Phase == PodFailed then BuildPhaseFailed
  else BuildPhaseZero

/-- The tail of `Handle`, from `var buildPhase` on, run on the build as the lookup branch
left it. -/
def monitorPodAction.reconcile (build : Build) (pod : Pod) : HandleResult :=
  let buildPhase := podBuildPhase pod
  if build.Status.Phase == buildPhase then
    -- Status is already up-to-date
    { build := build, returned := false, err := none }
  else
    { build := { build with Status := { build.Status with Phase := buildPhase } },
      returned := true, err := none }

/-- The method `monitorPodAction.Handle`.  The helper `buildPodName` is declared outside this
source tree and is a parameter. -/
def monitorPodAction.Handle (action : monitorPodAction) (buildPodName : ObjectMeta → String)
    (build : Build) : HandleResult :=
  -- Get the build pod
  let got := action.client build.Namespace (buildPodName build.Spec.Meta)
  match got.err with
  | some err =>
    if IsNotFound err then
      -- Let's reschedule the build
      monitorPodAction.reconcile
        { build with Status := { build.Status with Phase := BuildPhaseScheduling } } got.pod
    else
      { build := build, returned := false, err := some err }
  | none => monitorPodAction.reconcile build got.pod

/-! ## Service trait: constants -/

/-- The type `v1alpha1.IntegrationPhase`, a Go string type. -/
abbrev IntegrationPhase := String

/-- Modelled from the spec: the constant `v1alpha1.IntegrationPhaseNone`, the empty phase of
an Integration whose phase has not been set. -/
def IntegrationPhaseNone : IntegrationPhase := ""

/-- Modelled from the spec: the constant `v1alpha1.IntegrationPhaseInitialization`. -/
def IntegrationPhaseInitialization : IntegrationPhase := "Initialization"

/-- Modelled from the spec: the constant `v1alpha1.IntegrationPhaseDeploying`. -/
def IntegrationPhaseDeploying : IntegrationPhase := "Deploying"

/-- Modelled from the spec: the constant `v1alpha1.IntegrationConditionServiceAvailable`, the
Condition type the service trait reports under. -/
def IntegrationConditionServiceAvailable : String := "ServiceAvailable"

/-- Modelled from the spec: the constant
`v1alpha1.IntegrationConditionServiceAvailableReason`. -/
def IntegrationConditionServiceAvailableReason : String := "ServiceAvailable"

/-- Modelled from the spec: the constant
`v1alpha1.IntegrationConditionServiceNotAvailableReason`. -/
def IntegrationConditionServiceNotAvailableReason : String := "ServiceNotAvailable"

/-- Modelled from the spec: the constant `v1alpha1.ServiceTypeUser`. -/
def ServiceTypeUser : String := "user"

/-- The constant `corev1.ConditionTrue`. -/
def ConditionTrue : String := "True"

/-- The constant `corev1.ConditionFalse`. -/
def ConditionFalse : String := "False"

/-- The constant `corev1.ProtocolTCP`. -/
def ProtocolTCP : String := "TCP"

/-- The constant `httpPortName` of `service.go`. -/
def httpPortName : String := "http"

/-- Go's conversion `int32(n)` of an `int`: the value modulo `2^32` taken in
`[-2^31, 2^31)`. -/
def int32 (n : Int) : Int := (n + 2 ^ 31) % 2 ^ 32 - 2 ^ 31

/-! ## Service trait: data -/

/-- A Go `map[string]string` that is not `nil`: an association list, one entry per key. -/
abbrev StringMap := List (String × String)

/-- The read `m[k]` with presence flag. -/
def StringMap.get (m : StringMap) (k : String) : Option String :=
  match m with
  | [] => none
  | (k', v) :: rest => if k' == k then some v else StringMap.get rest k

/-- The write `m[k] = v` on a map that is not `nil`. -/
def StringMap.set (m : StringMap) (k v : String) : StringMap :=
  match m with
  | [] => [(k, v)]
  | (k', v') :: rest => if k' == k then (k', v) :: rest else (k', v') :: StringMap.set rest k v

/-- The type `intstr.IntOrString`. -/
inductive IntOrString where
  | int (IntVal : Int)
  | str (StrVal : String)
  deriving DecidableEq, Repr

/-- The function `intstr.FromString`. -/
def IntOrString.FromString (val : String) : IntOrString := .str val

/-- The type `corev1.ServicePort`. -/
structure ServicePort where
  Name : String
  Port : Int
  Protocol : String
  TargetPort : IntOrString
  deriving DecidableEq, Repr

/-- The type `corev1.Service`, flattened: type and object metadata and the two fields of the
spec the trait uses.  A `nil` map is `none`. -/
structure Service where
  Kind : String
  APIVersion : String
  Name : String
  Namespace : String
  Labels : Option StringMap
  Ports : List ServicePort
  Selector : Option StringMap
  deriving DecidableEq, Repr

/-- The type `corev1.ContainerPort`. -/
structure ContainerPort where
  Name : String
  ContainerPort : Int
  Protocol : String
  deriving DecidableEq, Repr

/-- The type `corev1.Container`. -/
structure Container where
  Name : String
  Ports : List ContainerPort
  deriving DecidableEq, Repr

/-- A Deployment-like object: a named manifest holding container entries. -/
structure Deployment where
  Name : String
  Containers : List Container
  deriving DecidableEq, Repr

/-- One staged manifest object. -/
inductive Resource where
  | service (svc : Service)
  | deployment (d : Deployment)
  | other (kind name : String)
  deriving DecidableEq, Repr

/-- Modelled from the spec: the type `kubernetes.Collection` behind `Environment.Resources`
(declared outside this source tree), an ordered sequence of staged manifest objects
supporting typed find-first-matching and append, no removal. -/
abbrev ResourceSet := List Resource

/-- The type `v1alpha1.IntegrationCondition` without its two timestamps; `Kind` is the Go
field `Type`. -/
structure IntegrationCondition where
  Kind : String
  Status : String
  Reason : String
  Message : String
  deriving DecidableEq, Repr

/-- The type `v1alpha1.SourceSpec`. -/
structure SourceSpec where
  Name : String
  Content : String
  Language : String
  deriving DecidableEq, Repr

/-- The type `v1alpha1.IntegrationSpec`. -/
structure IntegrationSpec where
  Sources : List SourceSpec
  Dependencies : List String
  deriving DecidableEq, Repr

/-- The type `v1alpha1.IntegrationStatus`. -/
structure IntegrationStatus where
  Phase : IntegrationPhase
  Dependencies : List String
  Conditions : List IntegrationCondition
  deriving DecidableEq, Repr

/-- The type `v1alpha1.Integration`. -/
structure Integration where
  Name : String
  Namespace : String
  Spec : IntegrationSpec
  Status : IntegrationStatus
  deriving DecidableEq, Repr

/-- The catalog reference of the Environment: scheme identifier to dependency coordinate. -/
structure CamelCatalog where
  schemes : List (String × String)
  deriving DecidableEq, Repr

/-- The type `metadata.IntegrationMetadata`, the classification `metadata.ExtractAll` gives. -/
structure IntegrationMetadata where
  Dependencies : List String
  RequiresHTTPService : Bool
  deriving DecidableEq, Repr

/-- The type `BaseTrait`: the trait id and the user's `enabled` setting (`*bool`). -/
structure BaseTrait where
  id : String
  Enabled : Option Bool
  deriving DecidableEq, Repr

/-- The type `serviceTrait`. -/
structure serviceTrait extends BaseTrait where
  Auto : Option Bool
  Port : Int
  PortName : String
  ContainerPort : Int
  ContainerPortName : String
  deriving DecidableEq, Repr

/-- The closure `Apply` registers, as a value: the variables it captured.  `svcName` is the
name of the Service `svc` points to; nothing in this development renames a staged Service. -/
structure PostProcessor where
  t : serviceTrait
  svcName : String
  port : ServicePort
  deriving DecidableEq, Repr

/-- Modelled from the spec: the type `Environment` (declared outside this source tree): the
Integration reference, the catalog reference, the owned ResourceSet and the owned ordered
list of PostProcessors. -/
structure Environment where
  Integration : Integration
  CamelCatalog : CamelCatalog
  Resources : ResourceSet
  PostProcessors : List PostProcessor
  deriving DecidableEq, Repr

/-- The external collaborators `Configure` calls: source resolution against the cluster
object store and the pure metadata extractor. -/
structure External where
  ResolveIntegrationSources : Integration → ResourceSet → Except GoError (List SourceSpec)
  ExtractAll : CamelCatalog → List SourceSpec → IntegrationMetadata

/-! ## Service trait: the Environment helpers -/

/-- Modelled from the spec: the method `IntegrationStatus.SetCondition` (declared outside this
source tree): upsert by type with replace-on-insert, so that at most one Condition of a type
is held at any time. -/
def IntegrationStatus.SetCondition (status : IntegrationStatus)
    (condType condStatus reason message : String) : IntegrationStatus :=
  { status with
    Conditions := status.Conditions.filter (fun c => !(c.Kind == condType)) ++
      [{ Kind := condType, Status := condStatus, Reason := reason, Message := message }] }

/-- Modelled from the spec: the method `IntegrationStatus.GetCondition`, the Condition held
under a type, if any. -/
def IntegrationStatus.GetCondition (status : IntegrationStatus) (condType : String) :
    Option IntegrationCondition :=
  status.Conditions.find? (fun c => c.Kind == condType)

/-- The statement `e.Integration.Status.SetCondition(...)` on an Environment. -/
def Environment.SetCondition (e : Environment) (condType condStatus reason message : String) :
    Environment :=
  { e with Integration :=
      { e.Integration with
        Status := e.Integration.Status.SetCondition condType condStatus reason message } }

/-- Modelled from the spec: the method `Environment.IntegrationInPhase` (declared outside this
source tree): the Integration of the Environment is in the given lifecycle phase. -/
def Environment.IntegrationInPhase (e : Environment) (phase : IntegrationPhase) : Bool :=
  e.Integration.Status.Phase == phase

/-- Modelled from the spec: the method `Collection.GetService` (declared outside this source
tree), typed find-first-matching: position and value of the first staged Service the filter
accepts.  The position stands for the pointer the Go method returns. -/
def ResourceSet.GetService (c : ResourceSet) (filter : Service → Bool) : Option (Nat × Service) :=
  match c with
  | [] => none
  | .service svc :: rest =>
    if filter svc then some (0, svc)
    else (ResourceSet.GetService rest filter).map (fun p => (p.1 + 1, p.2))
  | _ :: rest => (ResourceSet.GetService rest filter).map (fun p => (p.1 + 1, p.2))

/-- Modelled from the spec: the method `Collection.Add` (declared outside this source tree),
append at the end. -/
def ResourceSet.Add (c : ResourceSet) (r : Resource) : ResourceSet := c ++ [r]

/-- A write through a `*corev1.Service` obtained from the ResourceSet: the Service at the
position is replaced by its new state. -/
def ResourceSet.setService (c : ResourceSet) (i : Nat) (svc : Service) : ResourceSet :=
  c.set i (.service svc)

/-- Position and value of the first container of a list the filter accepts. -/
def firstContainer (filter : Container → Bool) : List Container → Option (Nat × Container)
  | [] => none
  | c :: rest =>
    if filter c then some (0, c)
    else (firstContainer filter rest).map (fun p => (p.1 + 1, p.2))

/-- Modelled from the spec: the method `Collection.GetContainer` (declared outside this source
tree), typed find-first-matching over the container entries of the Deployment-like objects,
in staging order: position of the object, position of the container in it, and its value. -/
def ResourceSet.GetContainer (c : ResourceSet) (filter : Container → Bool) :
    Option (Nat × Nat × Container) :=
  match c with
  | [] => none
  | .deployment d :: rest =>
    match firstContainer filter d.Containers with
    | some (j, x) => some (0, j, x)
    | none => (ResourceSet.GetContainer rest filter).map (fun p => (p.1 + 1, p.2))
  | _ :: rest => (ResourceSet.GetContainer rest filter).map (fun p => (p.1 + 1, p.2))

/-- A write through a `*corev1.Container` obtained from the ResourceSet. -/
def ResourceSet.setContainer (c : ResourceSet) (i j : Nat) (x : Container) : ResourceSet :=
  c.modify
    (fun r =>
      match r with
      | .deployment d => .deployment { d with Containers := d.Containers.set j x }
      | r => r)
    i

/-! ## Service trait: operations -/

/-- The function `newBaseTrait`: the id is set, `Enabled` is left `nil`. -/
def newBaseTrait (id : String) : BaseTrait := { id := id, Enabled := none }

/-- The function `newServiceTrait`. -/
def newServiceTrait : serviceTrait :=
  { toBaseTrait := newBaseTrait "service"
    Auto := none
    Port := 80
    PortName := httpPortName
    ContainerPort := 8080
    ContainerPortName := httpPortName }

/-- What `Configure` leaves behind: the Environment after the call and the two return values. -/
structure ConfigureResult where
  env : Environment
  enabled : Bool
  err : Option GoError
  deriving DecidableEq, Repr

/-- The method `serviceTrait.Configure`. -/
def serviceTrait.Configure (t : serviceTrait) (x : External) (e : Environment) :
    ConfigureResult :=
  if t.Enabled == some false then
    { env := e.SetCondition
        IntegrationConditionServiceAvailable
        ConditionFalse
        IntegrationConditionServiceNotAvailableReason
        "explicitly disabled",
      enabled := false, err := none }
  else if !e.IntegrationInPhase IntegrationPhaseDeploying then
    { env := e, enabled := false, err := none }
  else if t.Auto == none || t.Auto == some true then
    match x.ResolveIntegrationSources e.Integration e.Resources with
    | .error err =>
      { env := e.SetCondition
          IntegrationConditionServiceAvailable
          ConditionFalse
          IntegrationConditionServiceNotAvailableReason
          err.Error,
        enabled := false, err := some err }
    | .ok sources =>
      let meta := x.ExtractAll e.CamelCatalog sources
      if !meta.RequiresHTTPService then
        { env := e.SetCondition
            IntegrationConditionServiceAvailable
            ConditionFalse
            IntegrationConditionServiceNotAvailableReason
            "no http service required",
          enabled := false, err := none }
      else
        { env := e, enabled := true, err := none }
  else
    { env := e, enabled := true, err := none }

/-- The function `getServiceFor`. -/
def getServiceFor (e : Environment) : Service :=
  { Kind := "Service"
    APIVersion := "v1"
    Name := e.Integration.Name
    Namespace := e.Integration.Namespace
    Labels := some [("camel.apache.org/integration", e.Integration.Name)]
    Ports := []
    Selector := some [("camel.apache.org/integration", e.Integration.Name)] }

/-- What `Apply` leaves behind: the Environment after the call (at the point of the fault when
there is one), whether the call ended in a runtime fault, and the returned error. -/
structure ApplyResult where
  env : Environment
  fault : Bool
  err : Option GoError
  deriving DecidableEq, Repr

/-- The method `serviceTrait.Apply`.  The write `svc.Labels[...] = ...` on a `nil` map is a
runtime fault; the statements before it have taken effect by then. -/
def serviceTrait.Apply (t : serviceTrait) (e : Environment) : ApplyResult :=
  -- Either update the existing service added by previously executed traits
  -- (e.g. the prometheus trait) or add a new service resource
  let found := e.Resources.GetService (fun svc => svc.Name == e.Integration.Name)
  let resources := match found with
    | some _ => e.Resources
    | none => e.Resources.Add (.service (getServiceFor e))
  let i := match found with
    | some p => p.1
    | none => e.Resources.length
  let svc := match found with
    | some p => p.2
    | none => getServiceFor e
  let port : ServicePort :=
    { Name := t.PortName
      Port := int32 t.Port
      Protocol := ProtocolTCP
      TargetPort := IntOrString.FromString t.ContainerPortName }
  let svc := { svc with Ports := svc.Ports ++ [port] }
  -- Mark the service as a user service
  match svc.Labels with
  | none =>
    { env := { e with Resources := ResourceSet.setService resources i svc },
      fault := true, err := none }
  | some labels =>
    let svc := { svc with
      Labels := some (labels.set "camel.apache.org/service.type" ServiceTypeUser) }
    -- Register a post processor to add a container port to the integration deployment
    { env := { e with
        Resources := ResourceSet.setService resources i svc
        PostProcessors := e.PostProcessors ++ [{ t := t, svcName := svc.Name, port := port }] },
      fault := false, err := none }

/-- Go's `%d` of an integer. -/
def formatInt (n : Int) : String := toString n

/-- The PostProcessor `Apply` registers, run on an Environment: the Environment after the run
and the returned error. -/
def PostProcessor.run (p : PostProcessor) (environment : Environment) :
    Environment × Option GoError :=
  match environment.Resources.GetContainer (fun c => c.Name == environment.Integration.Name) with
  | some (i, j, container) =>
    let container := { container with
      Ports := container.Ports ++
        [{ Name := p.t.ContainerPortName
           ContainerPort := int32 p.t.ContainerPort
           Protocol := ProtocolTCP }] }
    let message :=
      p.svcName ++ "(" ++ p.port.Name ++ "/" ++ formatInt p.port.Port ++ ") -> " ++
        container.Name ++ "(" ++ p.t.ContainerPortName ++ "/" ++ formatInt p.t.ContainerPort ++ ")"
    let environment :=
      { environment with Resources := environment.Resources.setContainer i j container }
    (environment.SetCondition
        IntegrationConditionServiceAvailable
        ConditionTrue
        IntegrationConditionServiceAvailableReason
        message,
      none)
  | none =>
    (environment,
      some { Reason := "", Message := "cannot add " ++ p.t.ContainerPortName ++
        " container port: no integration container" })

/-- The Environment after `n` successive calls of `Apply`; a call that ends in a runtime fault
ends the sequence. -/
def serviceTrait.ApplyN (t : serviceTrait) : Nat → Environment → Environment
  | 0, e => e
  | n + 1, e =>
    if (t.Apply e).fault then (t.Apply e).env else serviceTrait.ApplyN t n (t.Apply e).env

/-- The staged object is a Service of the given name. -/
def Resource.isServiceNamed (name : String) : Resource → Bool
  | .service svc => svc.Name == name
  | _ => false

/-- Number of staged Services of a given name. -/
def ResourceSet.serviceCount (c : ResourceSet) (name : String) : Nat :=
  c.countP (Resource.isServiceNamed name)

/-- The Service `Apply` stages when none is there: the one `getServiceFor` creates, with the
port of the trait and the user service type label. -/
def serviceTrait.freshService (t : serviceTrait) (e : Environment) : Service :=
  { getServiceFor e with
    Ports :=
      [{ Name := t.PortName
         Port := int32 t.Port
         Protocol := ProtocolTCP
         TargetPort := IntOrString.FromString t.ContainerPortName }]
    Labels := some [("camel.apache.org/integration", e.Integration.Name),
      ("camel.apache.org/service.type", ServiceTypeUser)] }

/-- The Service of the Integration as `Apply` sees it before its writes, with its position:
the staged one `GetService` finds, else the one `getServiceFor` creates, placed at the end. -/
def Environment.integrationService (e : Environment) : Nat × Service :=
  match e.Resources.GetService (fun svc => svc.Name == e.Integration.Name) with
  | some p => p
  | none => (e.Resources.length, getServiceFor e)

/-- The port `Apply` builds from the trait. -/
def serviceTrait.servicePort (t : serviceTrait) : ServicePort :=
  { Name := t.PortName
    Port := int32 t.Port
    Protocol := ProtocolTCP
    TargetPort := IntOrString.FromString t.ContainerPortName }

/-- The two writes of `Apply` on the Service it holds, as far as they take effect: the port is
appended, and the service type label is set when the label map is not `nil`. -/
def serviceTrait.appliedService (t : serviceTrait) (svc : Service) : Service :=
  { svc with
    Ports := svc.Ports ++ [t.servicePort]
    Labels := svc.Labels.map
      (fun labels => labels.set "camel.apache.org/service.type" ServiceTypeUser) }

/-- The container entries staged in the ResourceSet, in staging order. -/
def ResourceSet.containers (c : ResourceSet) : List Container :=
  match c with
  | [] => []
  | .deployment d :: rest => d.Containers ++ ResourceSet.containers rest
  | _ :: rest => ResourceSet.containers rest

/-! ## Dependencies trait -/

/-- The type `dependenciesTrait`: a trait with no setting of its own. -/
structure dependenciesTrait extends BaseTrait where
  deriving DecidableEq, Repr

/-- The function `newDependenciesTrait` the tests call. -/
def newDependenciesTrait : dependenciesTrait :=
  { toBaseTrait := newBaseTrait "dependencies" }

/-- The external collaborators of the Dependencies trait: the catalog-backed extractor of the
dependency coordinates one Source requires, and the fixed dependency of the runtime. -/
structure DependenciesExternal where
  Extract : CamelCatalog → SourceSpec → IntegrationMetadata
  RuntimeDependency : String

/-- Modelled from the spec: the method `dependenciesTrait.Configure` (its source file is not
in this source tree, only its test is): the trait is enabled only when the Integration is in
its Initialization lifecycle phase; no error, no effect on the Environment. -/
def dependenciesTrait.Configure (_t : dependenciesTrait) (e : Environment) : ConfigureResult :=
  { env := e, enabled := e.IntegrationInPhase IntegrationPhaseInitialization, err := none }

/-- Modelled from the spec: the dependency coordinates `dependenciesTrait.Apply` collects
before de-duplication: for every Source those the catalog-backed extractor requires, the one
fixed dependency of the runtime, and the explicit dependencies the user declared. -/
def dependenciesTrait.collect (x : DependenciesExternal) (e : Environment) : List String :=
  e.Integration.Spec.Sources.flatMap (fun s => (x.Extract e.CamelCatalog s).Dependencies) ++
    [x.RuntimeDependency] ++ e.Integration.Spec.Dependencies

/-- Modelled from the spec: the method `dependenciesTrait.Apply` (its source file is not in
this source tree, only its test is): the collected coordinates, de-duplicated, are written to
the Integration status; no error. -/
def dependenciesTrait.Apply (_t : dependenciesTrait) (x : DependenciesExternal)
    (e : Environment) : ApplyResult :=
  { env := { e with
      Integration := { e.Integration with
        Status := { e.Integration.Status with
          Dependencies := (dependenciesTrait.collect x e).dedup } } },
    fault := false, err := none }

/-! ## Sample inputs -/

/-- The pod name helper used at the sample inputs. -/
def sampleBuildPodName (m : ObjectMeta) : String := "camel-k-" ++ m.Name ++ "-builder"

/-- A build of the pod strategy in a given phase. -/
def sampleBuild (phase : BuildPhase) : Build :=
  { Namespace := "ns"
    Name := "kit"
    Spec :=
      { Meta := { Name := "kit", Namespace := "ns" }
        Platform := { Build := { BuildStrategy := IntegrationPlatformBuildStrategyPod } } }
    Status := { Phase := phase } }

/-- A monitor whose lookup finds no pod: the pod object stays as allocated. -/
def notFoundAction : monitorPodAction :=
  { client := fun _ _ =>
      { pod := Pod.zero, err := some { Reason := "NotFound", Message := "pod not found" } } }

/-- A monitor whose lookup finds a pod in the given phase. -/
def foundAction (phase : PodPhase) : monitorPodAction :=
  { client := fun _ _ => { pod := { Status := { Phase := phase } }, err := none } }

/-- An Environment with nothing staged whose Integration is in the given phase and already
holds a positive ServiceAvailable Condition and one Condition of another type. -/
def sampleEnvironment (phase : IntegrationPhase) : Environment :=
  { Integration :=
      { Name := "routes"
        Namespace := "ns"
        Spec := { Sources := [], Dependencies := [] }
        Status :=
          { Phase := phase
            Dependencies := []
            Conditions :=
              [{ Kind := "ServiceAvailable", Status := "True", Reason := "ServiceAvailable",
                 Message := "routes(http/80) -> routes(http/8080)" },
               { Kind := "DeploymentAvailable", Status := "True", Reason := "DeploymentAvailable",
                 Message := "routes" }] } }
    CamelCatalog := { schemes := [] }
    Resources := []
    PostProcessors := [] }

/-- Collaborators whose source resolution succeeds with no source and whose extractor
answers with the given flag. -/
def sampleExternal (requiresHTTP : Bool) : External :=
  { ResolveIntegrationSources := fun _ _ => .ok []
    ExtractAll := fun _ _ => { Dependencies := [], RequiresHTTPService := requiresHTTP } }

/-- An Environment as `sampleEnvironment`, with a deployment and one Service named as the
Integration already staged. -/
def stagedEnvironment : Environment :=
  { sampleEnvironment IntegrationPhaseDeploying with
    Resources :=
      [.deployment { Name := "routes", Containers := [{ Name := "routes", Ports := [] }] },
       .service
         { Kind := "Service", APIVersion := "v1", Name := "routes", Namespace := "ns",
           Labels := some [("camel.apache.org/integration", "routes")],
           Ports := [{ Name := "prometheus", Port := 9779, Protocol := "TCP",
                       TargetPort := .int 9779 }],
           Selector := some [("camel.apache.org/integration", "routes")] }] }

/-- A monitor whose lookup fails with a server timeout. -/
def timeoutAction : monitorPodAction :=
  { client := fun _ _ =>
      { pod := Pod.zero, err := some { Reason := "Timeout", Message := "request timed out" } } }

/-- An Environment as `sampleEnvironment` in which one Service named as the Integration is
staged with a `nil` label map, next to a deployment holding the integration container. -/
def nilLabelsEnvironment : Environment :=
  { sampleEnvironment IntegrationPhaseDeploying with
    Resources :=
      [.deployment { Name := "routes", Containers := [{ Name := "routes", Ports := [] }] },
       .service
         { Kind := "Service", APIVersion := "v1", Name := "routes", Namespace := "ns",
           Labels := none, Ports := [], Selector := none }] }

/-- The default service trait with a service port beyond the range of `int32`. -/
def widePortTrait : serviceTrait := { newServiceTrait with Port := 4294967376 }

/-- The default service trait with a container port beyond the range of `int32`. -/
def wideContainerPortTrait : serviceTrait := { newServiceTrait with ContainerPort := 4294975376 }

/-- The PostProcessor `Apply` registers for a trait on an Integration of the given name. -/
def samplePostProcessor (t : serviceTrait) (name : String) : PostProcessor :=
  { t := t, svcName := name, port := t.servicePort }

/-- The Java source of the dependency tests. -/
def requestJava : SourceSpec :=
  { Name := "Request.java", Content := "from(\"direct:foo\").to(\"log:bar\");",
    Language := "java" }

/-- Collaborators of the Dependencies trait: an extractor that finds the components direct
and log in `requestJava` and nothing elsewhere, under the JVM runtime. -/
def sampleDependenciesExternal : DependenciesExternal :=
  { Extract := fun _ s =>
      if s = requestJava then
        { Dependencies := ["camel:core", "camel:direct", "camel:log"],
          RequiresHTTPService := false }
      else { Dependencies := [], RequiresHTTPService := false }
    RuntimeDependency := "runtime:jvm" }

/-- The Environment of the dependency tests: `requestJava` as only Source, the given explicit
dependencies, the Integration in the Initialization phase. -/
def dependenciesEnvironment (explicit : List String) : Environment :=
  { Integration :=
      { Name := "routes"
        Namespace := "ns"
        Spec := { Sources := [requestJava], Dependencies := explicit }
        Status := { Phase := IntegrationPhaseInitialization, Dependencies := [],
                    Conditions := [] } }
    CamelCatalog := { schemes := [] }
    Resources := []
    PostProcessors := [] }

/-! ## Build monitor: theorems -/

/-- After a not-found lookup the build `Handle` outputs is never in phase `Scheduling`: the
phase computed from the pod object is written over it. -/
theorem Handle_notFound_never_scheduling (action : monitorPodAction)
    (buildPodName : ObjectMeta → String) (build : Build) (err : GoError)
    (hget : (action.client build.Namespace (buildPodName build.Spec.Meta)).err = some err)
    (hnf : IsNotFound err = true) :
    (action.Handle buildPodName build).err = none ∧
      (action.Handle buildPodName build).returned = true ∧
      (action.Handle buildPodName build).build.Status.Phase ≠ BuildPhaseScheduling := by
  simp only [monitorPodAction.Handle, hget, hnf, monitorPodAction.reconcile, podBuildPhase]
  split_ifs <;> simp_all [BuildPhaseScheduling, BuildPhaseSucceeded, BuildPhaseFailed,
    BuildPhaseZero]

/-- Claim C1, evaluated on the code: a Pending build whose pod is not found comes back with no
error, as a mutated build, in the empty phase and not in phase `Scheduling`. -/
theorem Handle_notFound_pending_eval :
    (notFoundAction.Handle sampleBuildPodName (sampleBuild BuildPhasePending)).err = none ∧
      (notFoundAction.Handle sampleBuildPodName (sampleBuild BuildPhasePending)).output =
        some (sampleBuild "") ∧
      (notFoundAction.Handle sampleBuildPodName (sampleBuild BuildPhasePending)).output ≠
        some (sampleBuild BuildPhaseScheduling) := by
  decide

/-- Claim C2, evaluated on the code: a Pending build whose pod is found in phase `Running`
comes back as a mutated build in the empty phase, and so does a Running build whose pod is
`Pending`; the phase is not kept. -/
theorem Handle_nonTerminal_pod_eval :
    (foundAction PodRunning).Handle sampleBuildPodName (sampleBuild BuildPhasePending) =
        { build := sampleBuild "", returned := true, err := none } ∧
      (foundAction PodPending).Handle sampleBuildPodName (sampleBuild BuildPhaseRunning) =
        { build := sampleBuild "", returned := true, err := none } ∧
      ((foundAction PodRunning).Handle sampleBuildPodName
          (sampleBuild BuildPhasePending)).build.Status.Phase ≠
        (sampleBuild BuildPhasePending).Status.Phase := by
  decide

/-- For a found pod that is neither `Succeeded` nor `Failed`, `Handle` writes the empty phase
into every build whose phase is not empty. -/
theorem Handle_nonTerminal_pod_resets (action : monitorPodAction)
    (buildPodName : ObjectMeta → String) (build : Build)
    (hget : (action.client build.Namespace (buildPodName build.Spec.Meta)).err = none)
    (hs : (action.client build.Namespace (buildPodName build.Spec.Meta)).pod.Status.Phase ≠
      PodSucceeded)
    (hf : (action.client build.Namespace (buildPodName build.Spec.Meta)).pod.Status.Phase ≠
      PodFailed)
    (hb : build.Status.Phase ≠ "") :
    action.Handle buildPodName build =
      { build := { build with Status := { build.Status with Phase := "" } },
        returned := true, err := none } := by
  simp [monitorPodAction.Handle, hget, monitorPodAction.reconcile, podBuildPhase, hs, hf, hb,
    BuildPhaseZero]

/-- Claim C3: for a successfully found pod in phase `Succeeded` (respectively `Failed`) and a
build not already in phase `Succeeded` (respectively `Failed`), `Handle` returns no error and
the build, whose phase is now `Succeeded` (respectively `Failed`) and which is otherwise as
it was. -/
theorem Handle_terminal_mapping (action : monitorPodAction)
    (buildPodName : ObjectMeta → String) (build : Build)
    (hget : (action.client build.Namespace (buildPodName build.Spec.Meta)).err = none) :
    ((action.client build.Namespace (buildPodName build.Spec.Meta)).pod.Status.Phase =
          PodSucceeded →
        build.Status.Phase ≠ BuildPhaseSucceeded →
        (action.Handle buildPodName build).err = none ∧
          (action.Handle buildPodName build).output =
            some { build with Status := { build.Status with Phase := BuildPhaseSucceeded } }) ∧
      ((action.client build.Namespace (buildPodName build.Spec.Meta)).pod.Status.Phase =
          PodFailed →
        build.Status.Phase ≠ BuildPhaseFailed →
        (action.Handle buildPodName build).err = none ∧
          (action.Handle buildPodName build).output =
            some { build with Status := { build.Status with Phase := BuildPhaseFailed } }) := by
  constructor
  · intro hp hb
    simp [monitorPodAction.Handle, hget, monitorPodAction.reconcile, podBuildPhase, hp, hb,
      HandleResult.output]
  · intro hp hb
    have hne : ¬ (PodFailed = PodSucceeded) := by decide
    simp [monitorPodAction.Handle, hget, monitorPodAction.reconcile, podBuildPhase, hp, hb,
      hne, HandleResult.output]

/-- Witness of claim C3: a Running build with a Succeeded pod, and one with a Failed pod. -/
theorem Handle_terminal_mapping_witness :
    ((foundAction PodSucceeded).Handle sampleBuildPodName (sampleBuild BuildPhaseRunning)).output =
        some (sampleBuild BuildPhaseSucceeded) ∧
      ((foundAction PodFailed).Handle sampleBuildPodName (sampleBuild BuildPhaseRunning)).output =
        some (sampleBuild BuildPhaseFailed) :=
  ⟨((Handle_terminal_mapping (foundAction PodSucceeded) sampleBuildPodName
      (sampleBuild BuildPhaseRunning) rfl).1 rfl (by decide)).2,
    ((Handle_terminal_mapping (foundAction PodFailed) sampleBuildPodName
      (sampleBuild BuildPhaseRunning) rfl).2 rfl (by decide)).2⟩

/-- Claim C4: for a successfully found pod, when the phase computed from the pod (`Succeeded`
for a Succeeded pod, `Failed` for a Failed pod, the zero value otherwise) equals the current
phase of the build, `Handle` returns neither a build nor an error and the build it was given
is as before. -/
theorem Handle_noop (action : monitorPodAction)
    (buildPodName : ObjectMeta → String) (build : Build)
    (hget : (action.client build.Namespace (buildPodName build.Spec.Meta)).err = none)
    (heq :
      ((action.client build.Namespace (buildPodName build.Spec.Meta)).pod.Status.Phase =
          PodSucceeded ∧ build.Status.Phase = BuildPhaseSucceeded) ∨
      ((action.client build.Namespace (buildPodName build.Spec.Meta)).pod.Status.Phase =
          PodFailed ∧ build.Status.Phase = BuildPhaseFailed) ∨
      ((action.client build.Namespace (buildPodName build.Spec.Meta)).pod.Status.Phase ≠
          PodSucceeded ∧
        (action.client build.Namespace (buildPodName build.Spec.Meta)).pod.Status.Phase ≠
          PodFailed ∧ build.Status.Phase = "")) :
    (action.Handle buildPodName build).output = none ∧
      (action.Handle buildPodName build).err = none ∧
      (action.Handle buildPodName build).build = build := by
  have hne : ¬ (PodFailed = PodSucceeded) := by decide
  rcases heq with ⟨hp, hb⟩ | ⟨hp, hb⟩ | ⟨hs, hf, hb⟩
  · simp [monitorPodAction.Handle, hget, monitorPodAction.reconcile, podBuildPhase, hp, hb,
      HandleResult.output]
  · simp [monitorPodAction.Handle, hget, monitorPodAction.reconcile, podBuildPhase, hp, hb,
      hne, HandleResult.output]
  · simp [monitorPodAction.Handle, hget, monitorPodAction.reconcile, podBuildPhase, hs, hf, hb,
      HandleResult.output, BuildPhaseZero]

/-- Witness of claim C4: a Succeeded build whose pod is Succeeded. -/
theorem Handle_noop_witness :
    ((foundAction PodSucceeded).Handle sampleBuildPodName
        (sampleBuild BuildPhaseSucceeded)).output = none ∧
      ((foundAction PodSucceeded).Handle sampleBuildPodName
        (sampleBuild BuildPhaseSucceeded)).err = none ∧
      ((foundAction PodSucceeded).Handle sampleBuildPodName
        (sampleBuild BuildPhaseSucceeded)).build = sampleBuild BuildPhaseSucceeded :=
  Handle_noop (foundAction PodSucceeded) sampleBuildPodName (sampleBuild BuildPhaseSucceeded)
    rfl (Or.inl ⟨rfl, rfl⟩)

/-- Claim C5: for a pod lookup that fails with an error that is not a not-found error,
`Handle` returns exactly that error and no build, and the build it was given (its phase
included) is as before. -/
theorem Handle_other_error (action : monitorPodAction)
    (buildPodName : ObjectMeta → String) (build : Build) (err : GoError)
    (hget : (action.client build.Namespace (buildPodName build.Spec.Meta)).err = some err)
    (hnf : IsNotFound err = false) :
    (action.Handle buildPodName build).err = some err ∧
      (action.Handle buildPodName build).output = none ∧
      (action.Handle buildPodName build).build = build := by
  simp [monitorPodAction.Handle, hget, hnf, HandleResult.output]

/-- Witness of claim C5: a Running build whose pod lookup times out. -/
theorem Handle_other_error_witness :
    (timeoutAction.Handle sampleBuildPodName (sampleBuild BuildPhaseRunning)).err =
        some { Reason := "Timeout", Message := "request timed out" } ∧
      (timeoutAction.Handle sampleBuildPodName (sampleBuild BuildPhaseRunning)).output = none ∧
      (timeoutAction.Handle sampleBuildPodName (sampleBuild BuildPhaseRunning)).build =
        sampleBuild BuildPhaseRunning :=
  Handle_other_error timeoutAction sampleBuildPodName (sampleBuild BuildPhaseRunning)
    { Reason := "Timeout", Message := "request timed out" } rfl (by decide)

/-- Claim C6: `CanHandle` is true exactly when the phase of the build is `Pending` or
`Running` and its build strategy is the pod strategy; it is a function of the build alone
(whatever the action, and the build is only read); it is false in the phases `Scheduling`,
`Succeeded`, `Failed` and the empty phase, whatever the rest of the build. -/
theorem CanHandle_iff (action : monitorPodAction) (build : Build) :
    (action.CanHandle build = true ↔
        (build.Status.Phase = BuildPhasePending ∨ build.Status.Phase = BuildPhaseRunning) ∧
          build.Spec.Platform.Build.BuildStrategy = IntegrationPlatformBuildStrategyPod) ∧
      (∀ other : monitorPodAction, other.CanHandle build = action.CanHandle build) ∧
      action.CanHandle { build with Status := { Phase := BuildPhaseScheduling } } = false ∧
      action.CanHandle { build with Status := { Phase := BuildPhaseSucceeded } } = false ∧
      action.CanHandle { build with Status := { Phase := BuildPhaseFailed } } = false ∧
      action.CanHandle { build with Status := { Phase := "" } } = false := by
  refine ⟨?_, fun _ => rfl, ?_, ?_, ?_, ?_⟩
  · simp [monitorPodAction.CanHandle]
  all_goals
    simp [monitorPodAction.CanHandle, BuildPhaseScheduling, BuildPhaseSucceeded,
      BuildPhaseFailed, BuildPhasePending, BuildPhaseRunning]

/-! ## Conditions: upsert by type -/

/-- After `SetCondition` the Condition held under the type is the one just set. -/
theorem SetCondition_GetCondition (status : IntegrationStatus)
    (condType condStatus reason message : String) :
    (status.SetCondition condType condStatus reason message).GetCondition condType =
      some { Kind := condType, Status := condStatus, Reason := reason, Message := message } := by
  have hnone : (status.Conditions.filter (fun c => !(c.Kind == condType))).find?
      (fun c => c.Kind == condType) = none := by
    rw [List.find?_eq_none]
    intro c hc
    have := (List.mem_filter.mp hc).2
    simpa using this
  simp [IntegrationStatus.SetCondition, IntegrationStatus.GetCondition, List.find?_append, hnone]

/-- After `SetCondition` exactly one Condition of the type is held. -/
theorem SetCondition_unique (status : IntegrationStatus)
    (condType condStatus reason message : String) :
    ((status.SetCondition condType condStatus reason message).Conditions.filter
      (fun c => c.Kind == condType)).length = 1 := by
  have hnil : (status.Conditions.filter (fun c => !(c.Kind == condType))).filter
      (fun c => c.Kind == condType) = [] := by
    rw [List.filter_eq_nil_iff]
    intro c hc
    have := (List.mem_filter.mp hc).2
    simpa using this
  simp [IntegrationStatus.SetCondition, List.filter_append, hnil]

/-- The call `SetCondition` leaves the Conditions of every other type, the phase and the
dependencies as they were. -/
theorem SetCondition_frame (status : IntegrationStatus)
    (condType condStatus reason message : String) :
    (status.SetCondition condType condStatus reason message).Conditions.filter
        (fun c => !(c.Kind == condType)) =
      status.Conditions.filter (fun c => !(c.Kind == condType)) ∧
    (status.SetCondition condType condStatus reason message).Phase = status.Phase ∧
    (status.SetCondition condType condStatus reason message).Dependencies =
      status.Dependencies := by
  simp [IntegrationStatus.SetCondition, List.filter_append, List.filter_filter]

/-! ## Service trait Configure: theorems -/

/-- Claim C7: when the trait is explicitly disabled (`Enabled` set to false), whatever the
Environment and the phase of its Integration, `Configure` returns enabled=false and no error,
and the Integration status afterwards is the one before with the ServiceAvailable Condition
upserted: it holds exactly one Condition of type ServiceAvailable, of status False, reason
ServiceNotAvailable and message "explicitly disabled". -/
theorem Configure_explicitly_disabled (t : serviceTrait) (x : External) (e : Environment)
    (hdis : t.Enabled = some false) :
    (t.Configure x e).enabled = false ∧
      (t.Configure x e).err = none ∧
      (t.Configure x e).env.Integration.Status =
        e.Integration.Status.SetCondition IntegrationConditionServiceAvailable ConditionFalse
          IntegrationConditionServiceNotAvailableReason "explicitly disabled" ∧
      (t.Configure x e).env.Integration.Status.GetCondition "ServiceAvailable" =
        some { Kind := "ServiceAvailable", Status := "False", Reason := "ServiceNotAvailable",
               Message := "explicitly disabled" } ∧
      ((t.Configure x e).env.Integration.Status.Conditions.filter
        (fun c => c.Kind == "ServiceAvailable")).length = 1 := by
  have hr : t.Configure x e =
      { env := e.SetCondition IntegrationConditionServiceAvailable ConditionFalse
          IntegrationConditionServiceNotAvailableReason "explicitly disabled",
        enabled := false, err := none } := by
    simp [serviceTrait.Configure, hdis]
  rw [hr]
  refine ⟨rfl, rfl, rfl, ?_, ?_⟩
  · exact SetCondition_GetCondition _ _ _ _ _
  · exact SetCondition_unique _ _ _ _ _

/-- Witness of claim C7: the default trait with `Enabled` set to false, on an Integration in
the Deploying phase that held a positive ServiceAvailable Condition. -/
theorem Configure_explicitly_disabled_witness :
    ({ newServiceTrait with Enabled := some false }.Configure (sampleExternal true)
        (sampleEnvironment IntegrationPhaseDeploying)).enabled = false ∧
      ({ newServiceTrait with Enabled := some false }.Configure (sampleExternal true)
        (sampleEnvironment IntegrationPhaseDeploying)).env.Integration.Status.GetCondition
          "ServiceAvailable" =
        some { Kind := "ServiceAvailable", Status := "False", Reason := "ServiceNotAvailable",
               Message := "explicitly disabled" } :=
  have h := Configure_explicitly_disabled { newServiceTrait with Enabled := some false }
    (sampleExternal true) (sampleEnvironment IntegrationPhaseDeploying) rfl
  ⟨h.1, h.2.2.2.1⟩

/-- Claim C8: for a trait that is not explicitly disabled and has auto-detection active
(`Auto` unset or true), an Integration in the Deploying phase and a successful source
resolution, `Configure` returns no error and enabled equal to the extractor's answer that an
inbound HTTP service is required; when it is required the Environment is as before, and when
it is not the ServiceAvailable Condition is upserted with status False, reason
ServiceNotAvailable and message "no http service required". -/
theorem Configure_auto_detection (t : serviceTrait) (x : External) (e : Environment)
    (sources : List SourceSpec)
    (hen : t.Enabled ≠ some false)
    (hauto : t.Auto = none ∨ t.Auto = some true)
    (hphase : e.Integration.Status.Phase = IntegrationPhaseDeploying)
    (hres : x.ResolveIntegrationSources e.Integration e.Resources = .ok sources) :
    (t.Configure x e).err = none ∧
      (t.Configure x e).enabled = (x.ExtractAll e.CamelCatalog sources).RequiresHTTPService ∧
      ((x.ExtractAll e.CamelCatalog sources).RequiresHTTPService = true →
        (t.Configure x e).env = e) ∧
      ((x.ExtractAll e.CamelCatalog sources).RequiresHTTPService = false →
        (t.Configure x e).env =
            e.SetCondition IntegrationConditionServiceAvailable ConditionFalse
              IntegrationConditionServiceNotAvailableReason "no http service required" ∧
          (t.Configure x e).env.Integration.Status.GetCondition "ServiceAvailable" =
            some { Kind := "ServiceAvailable", Status := "False",
                   Reason := "ServiceNotAvailable", Message := "no http service required" }) := by
  have hauto' : (t.Auto == none || t.Auto == some true) = true := by
    rcases hauto with h | h <;> simp [h]
  cases hreq : (x.ExtractAll e.CamelCatalog sources).RequiresHTTPService
  · have hr : t.Configure x e =
        { env := e.SetCondition IntegrationConditionServiceAvailable ConditionFalse
            IntegrationConditionServiceNotAvailableReason "no http service required",
          enabled := false, err := none } := by
      simp [serviceTrait.Configure, hen, Environment.IntegrationInPhase, hphase, hauto', hres,
        hreq]
    rw [hr]
    refine ⟨rfl, rfl, fun h => (by cases h), fun _ => ⟨rfl, ?_⟩⟩
    exact SetCondition_GetCondition _ _ _ _ _
  · have hr : t.Configure x e = { env := e, enabled := true, err := none } := by
      simp [serviceTrait.Configure, hen, Environment.IntegrationInPhase, hphase, hauto', hres,
        hreq]
    rw [hr]
    exact ⟨rfl, rfl, fun _ => rfl, fun h => (by cases h)⟩

/-- Witness of claim C8: the default trait on a Deploying Integration, once with an extractor
that requires an HTTP service and once with one that does not. -/
theorem Configure_auto_detection_witness :
    (newServiceTrait.Configure (sampleExternal true)
        (sampleEnvironment IntegrationPhaseDeploying)).enabled = true ∧
      (newServiceTrait.Configure (sampleExternal false)
        (sampleEnvironment IntegrationPhaseDeploying)).enabled = false ∧
      (newServiceTrait.Configure (sampleExternal false)
        (sampleEnvironment IntegrationPhaseDeploying)).env.Integration.Status.GetCondition
          "ServiceAvailable" =
        some { Kind := "ServiceAvailable", Status := "False",
               Reason := "ServiceNotAvailable", Message := "no http service required" } :=
  ⟨(Configure_auto_detection newServiceTrait (sampleExternal true)
      (sampleEnvironment IntegrationPhaseDeploying) [] (by decide) (Or.inl rfl) rfl rfl).2.1,
    (Configure_auto_detection newServiceTrait (sampleExternal false)
      (sampleEnvironment IntegrationPhaseDeploying) [] (by decide) (Or.inl rfl) rfl rfl).2.1,
    ((Configure_auto_detection newServiceTrait (sampleExternal false)
      (sampleEnvironment IntegrationPhaseDeploying) [] (by decide) (Or.inl rfl) rfl rfl).2.2.2
        rfl).2⟩

/-- Claim C9: for a trait that is not explicitly disabled (`Enabled` unset or true): when the
Integration is not in the Deploying phase, `Configure` returns enabled=false and no error and
leaves the whole Environment, its Conditions included, as it was, whatever `Auto`; and with
`Auto` set to false and the Integration in the Deploying phase it returns enabled=true and no
error, the Environment again as it was. -/
theorem Configure_phase_gate (t : serviceTrait) (x : External) (e : Environment)
    (hen : t.Enabled = none ∨ t.Enabled = some true) :
    (e.Integration.Status.Phase ≠ IntegrationPhaseDeploying →
        t.Configure x e = { env := e, enabled := false, err := none }) ∧
      (t.Auto = some false → e.Integration.Status.Phase = IntegrationPhaseDeploying →
        t.Configure x e = { env := e, enabled := true, err := none }) := by
  have hen' : t.Enabled ≠ some false := by
    rcases hen with h | h <;> simp [h]
  constructor
  · intro hphase
    simp [serviceTrait.Configure, hen', Environment.IntegrationInPhase, hphase]
  · intro hauto hphase
    simp [serviceTrait.Configure, hen', Environment.IntegrationInPhase, hphase, hauto]

/-- Witness of claim C9: the default trait on an Integration in the Initialization phase, and
the trait with `Auto` set to false on a Deploying Integration whose extractor would not ask
for an HTTP service. -/
theorem Configure_phase_gate_witness :
    newServiceTrait.Configure (sampleExternal true)
        (sampleEnvironment IntegrationPhaseInitialization) =
      { env := sampleEnvironment IntegrationPhaseInitialization, enabled := false,
        err := none } ∧
    { newServiceTrait with Auto := some false }.Configure (sampleExternal false)
        (sampleEnvironment IntegrationPhaseDeploying) =
      { env := sampleEnvironment IntegrationPhaseDeploying, enabled := true, err := none } :=
  ⟨(Configure_phase_gate newServiceTrait (sampleExternal true)
      (sampleEnvironment IntegrationPhaseInitialization) (Or.inl rfl)).1 (by decide),
    (Configure_phase_gate { newServiceTrait with Auto := some false } (sampleExternal false)
      (sampleEnvironment IntegrationPhaseDeploying) (Or.inl rfl)).2 rfl rfl⟩

/-! ## Service trait Apply: the staged Service -/

/-- The lookup `GetService` finds nothing exactly when the filter rejects every staged
Service. -/
theorem GetService_eq_none_iff (c : ResourceSet) (filter : Service → Bool) :
    c.GetService filter = none ↔ ∀ svc, Resource.service svc ∈ c → filter svc = false := by
  induction c with
  | nil => simp [ResourceSet.GetService]
  | cons r rest ih =>
    cases r with
    | service s =>
      by_cases hf : filter s = true
      · simp only [ResourceSet.GetService, hf, if_true]
        constructor
        · intro h; cases h
        · intro h
          have := h s (List.mem_cons_self _ _)
          simp [hf] at this
      · simp only [Bool.not_eq_true] at hf
        have hg : ResourceSet.GetService (.service s :: rest) filter =
            (ResourceSet.GetService rest filter).map (fun p => (p.1 + 1, p.2)) := by
          simp [ResourceSet.GetService, hf]
        rw [hg, Option.map_eq_none', ih]
        constructor
        · intro h svc hm
          rcases List.mem_cons.mp hm with heq | hm
          · cases heq; exact hf
          · exact h svc hm
        · intro h svc hm
          exact h svc (List.mem_cons_of_mem _ hm)
    | deployment d =>
      simp only [ResourceSet.GetService, Option.map_eq_none', ih]
      simp
    | other k n =>
      simp only [ResourceSet.GetService, Option.map_eq_none', ih]
      simp

/-- What `GetService` finds is a staged Service the filter accepts, at the position it gives. -/
theorem GetService_eq_some (rs : ResourceSet) (filter : Service → Bool) (i : Nat)
    (svc : Service) (h : rs.GetService filter = some (i, svc)) :
    rs[i]? = some (.service svc) ∧ filter svc = true := by
  induction rs generalizing i with
  | nil => simp [ResourceSet.GetService] at h
  | cons r rest ih =>
    have htail : ∀ p, ResourceSet.GetService rest filter = some p →
        (p.1 + 1, p.2) = (i, svc) → (r :: rest)[i]? = some (.service svc) ∧ filter svc = true := by
      intro p hp heq
      obtain ⟨j, s⟩ := p
      simp only [Prod.mk.injEq] at heq
      obtain ⟨hj, hs⟩ := heq
      subst hj hs
      simpa using ih j hp
    cases r with
    | service s =>
      by_cases hf : filter s = true
      · simp only [ResourceSet.GetService, hf, if_true, Option.some.injEq, Prod.mk.injEq] at h
        obtain ⟨hi, hs⟩ := h
        subst hi hs
        simp [hf]
      · simp only [Bool.not_eq_true] at hf
        have hg : ResourceSet.GetService (.service s :: rest) filter =
            (ResourceSet.GetService rest filter).map (fun p => (p.1 + 1, p.2)) := by
          simp [ResourceSet.GetService, hf]
        rw [hg, Option.map_eq_some'] at h
        obtain ⟨p, hp, heq⟩ := h
        exact htail p hp heq
    | deployment d =>
      simp only [ResourceSet.GetService, Option.map_eq_some'] at h
      obtain ⟨p, hp, heq⟩ := h
      exact htail p hp heq
    | other k n =>
      simp only [ResourceSet.GetService, Option.map_eq_some'] at h
      obtain ⟨p, hp, heq⟩ := h
      exact htail p hp heq

/-- Replacing a staged Service by one of the same name keeps the number of Services of every
name. -/
theorem serviceCount_setService (rs : ResourceSet) (i : Nat) (svc svc' : Service)
    (name : String) (hget : rs[i]? = some (.service svc)) (hname : svc'.Name = svc.Name) :
    (rs.setService i svc').serviceCount name = rs.serviceCount name := by
  induction rs generalizing i with
  | nil => simp at hget
  | cons r rest ih =>
    cases i with
    | zero =>
      simp only [List.getElem?_cons_zero, Option.some.injEq] at hget
      subst hget
      simp [ResourceSet.setService, ResourceSet.serviceCount, List.countP_cons,
        Resource.isServiceNamed, hname]
    | succ j =>
      simp only [List.getElem?_cons_succ] at hget
      have := ih j hget
      simp only [ResourceSet.setService, ResourceSet.serviceCount, List.set_cons_succ,
        List.countP_cons] at this ⊢
      rw [this]

/-- Appending a Service adds one to the count of its name and nothing to the others. -/
theorem serviceCount_append_service (c : ResourceSet) (svc : Service) (name : String) :
    ResourceSet.serviceCount (c ++ [.service svc]) name =
      c.serviceCount name + (if svc.Name = name then 1 else 0) := by
  simp [ResourceSet.serviceCount, List.countP_append, List.countP_cons,
    Resource.isServiceNamed]

/-- No staged Service has the name exactly when the count of the name is zero. -/
theorem serviceCount_eq_zero_iff (c : ResourceSet) (name : String) :
    c.serviceCount name = 0 ↔ ∀ svc, Resource.service svc ∈ c → svc.Name ≠ name := by
  simp only [ResourceSet.serviceCount, List.countP_eq_zero]
  constructor
  · intro h svc hm
    simpa [Resource.isServiceNamed] using h _ hm
  · intro h r hm
    cases r with
    | service s => simpa [Resource.isServiceNamed] using h s hm
    | deployment d => simp [Resource.isServiceNamed]
    | other k n => simp [Resource.isServiceNamed]

/-- With no Service named as the Integration staged, `Apply` appends the fresh Service and
registers its PostProcessor, without a fault. -/
theorem Apply_of_not_found (t : serviceTrait) (e : Environment)
    (h : e.Resources.GetService (fun svc => svc.Name == e.Integration.Name) = none) :
    t.Apply e =
      { env := { e with
          Resources := e.Resources ++ [.service (t.freshService e)]
          PostProcessors := e.PostProcessors ++
            [{ t := t, svcName := e.Integration.Name,
               port := { Name := t.PortName, Port := int32 t.Port, Protocol := ProtocolTCP,
                         TargetPort := IntOrString.FromString t.ContainerPortName } }] },
        fault := false, err := none } := by
  simp [serviceTrait.Apply, h, getServiceFor, ResourceSet.Add, ResourceSet.setService,
    StringMap.set, serviceTrait.freshService]

/-- With a Service named as the Integration staged, `Apply` rewrites that Service in place,
keeping its name: nothing is appended and the Integration is untouched. -/
theorem Apply_of_found (t : serviceTrait) (e : Environment) (i : Nat) (svc : Service)
    (h : e.Resources.GetService (fun svc => svc.Name == e.Integration.Name) = some (i, svc)) :
    ∃ svc' : Service, svc'.Name = svc.Name ∧
      (t.Apply e).env.Resources = e.Resources.setService i svc' ∧
      (t.Apply e).env.Integration = e.Integration := by
  cases hl : svc.Labels with
  | none =>
    exact ⟨{ svc with Ports := svc.Ports ++
        [{ Name := t.PortName, Port := int32 t.Port, Protocol := ProtocolTCP,
           TargetPort := IntOrString.FromString t.ContainerPortName }] }, rfl,
      by simp [serviceTrait.Apply, h, hl], by simp [serviceTrait.Apply, h, hl]⟩
  | some labels =>
    exact ⟨{ svc with
        Ports := svc.Ports ++
          [{ Name := t.PortName, Port := int32 t.Port, Protocol := ProtocolTCP,
             TargetPort := IntOrString.FromString t.ContainerPortName }]
        Labels := some (labels.set "camel.apache.org/service.type" ServiceTypeUser) }, rfl,
      by simp [serviceTrait.Apply, h, hl], by simp [serviceTrait.Apply, h, hl]⟩

/-- The call `Apply` never touches the Integration of the Environment. -/
theorem Apply_Integration (t : serviceTrait) (e : Environment) :
    (t.Apply e).env.Integration = e.Integration := by
  cases h : e.Resources.GetService (fun svc => svc.Name == e.Integration.Name) with
  | none => rw [Apply_of_not_found t e h]
  | some p =>
    obtain ⟨svc', -, -, hi⟩ := Apply_of_found t e p.1 p.2 h
    exact hi

/-- One call of `Apply` brings the number of Services named as the Integration from zero to
one and leaves any other number as it is. -/
theorem Apply_serviceCount (t : serviceTrait) (e : Environment) :
    (t.Apply e).env.Resources.serviceCount e.Integration.Name =
      if e.Resources.serviceCount e.Integration.Name = 0 then 1
      else e.Resources.serviceCount e.Integration.Name := by
  cases h : e.Resources.GetService (fun svc => svc.Name == e.Integration.Name) with
  | none =>
    have hz : e.Resources.serviceCount e.Integration.Name = 0 := by
      rw [serviceCount_eq_zero_iff]
      intro svc hm
      have := (GetService_eq_none_iff _ _).mp h svc hm
      simpa using this
    rw [Apply_of_not_found t e h, hz]
    simp [serviceCount_append_service, hz, serviceTrait.freshService, getServiceFor]
  | some p =>
    obtain ⟨svc', hname, hres, -⟩ := Apply_of_found t e p.1 p.2 h
    obtain ⟨hget, hf⟩ := GetService_eq_some _ _ p.1 p.2 h
    have hnz : e.Resources.serviceCount e.Integration.Name ≠ 0 := by
      intro hz
      have := (serviceCount_eq_zero_iff _ _).mp hz p.2 (List.getElem?_mem hget)
      simp at hf
      exact this hf
    rw [hres, serviceCount_setService _ _ _ _ _ hget hname, if_neg hnz]

/-- Once exactly one Service named as the Integration is staged, any number of further calls
of `Apply` keeps it so. -/
theorem ApplyN_serviceCount_one (t : serviceTrait) (n : Nat) (e : Environment)
    (h : e.Resources.serviceCount e.Integration.Name = 1) :
    (t.ApplyN n e).Resources.serviceCount e.Integration.Name = 1 := by
  induction n generalizing e with
  | zero => simpa [serviceTrait.ApplyN] using h
  | succ n ih =>
    have hstep : (t.Apply e).env.Resources.serviceCount e.Integration.Name = 1 := by
      rw [Apply_serviceCount, h]; simp
    simp only [serviceTrait.ApplyN]
    split_ifs
    · exact hstep
    · have := ih (t.Apply e).env (by rw [Apply_Integration]; exact hstep)
      rw [Apply_Integration] at this
      exact this

/-- Claim C10: `Apply` is get-or-create on the Service entry.  The ResourceSet grows by one
object exactly when no staged Service is named as the Integration, and then the object
appended is a Service with the name and namespace of the Integration whose labels and
selector carry camel.apache.org/integration = Integration name; otherwise nothing is
appended.  After any number (at least one) of successive calls on an Environment that started
with at most one such Service, exactly one Service with the name of the Integration is
staged.  The Service `getServiceFor` creates has that name, namespace, label and selector. -/
theorem Apply_get_or_create (t : serviceTrait) (e : Environment) :
    ((t.Apply e).env.Resources.length = e.Resources.length + 1 ↔
        ∀ svc, Resource.service svc ∈ e.Resources → svc.Name ≠ e.Integration.Name) ∧
      ((∀ svc, Resource.service svc ∈ e.Resources → svc.Name ≠ e.Integration.Name) →
        ∃ svc : Service, (t.Apply e).env.Resources = e.Resources ++ [.service svc] ∧
          svc.Name = e.Integration.Name ∧ svc.Namespace = e.Integration.Namespace ∧
          svc.Labels.bind (fun m => m.get "camel.apache.org/integration") =
            some e.Integration.Name ∧
          svc.Selector = some [("camel.apache.org/integration", e.Integration.Name)]) ∧
      ((∃ svc, Resource.service svc ∈ e.Resources ∧ svc.Name = e.Integration.Name) →
        (t.Apply e).env.Resources.length = e.Resources.length) ∧
      (∀ n, 1 ≤ n → e.Resources.serviceCount e.Integration.Name ≤ 1 →
        (t.ApplyN n e).Resources.serviceCount e.Integration.Name = 1) ∧
      ((getServiceFor e).Name = e.Integration.Name ∧
        (getServiceFor e).Namespace = e.Integration.Namespace ∧
        (getServiceFor e).Labels =
          some [("camel.apache.org/integration", e.Integration.Name)] ∧
        (getServiceFor e).Selector =
          some [("camel.apache.org/integration", e.Integration.Name)]) := by
  have hnone : (∀ svc, Resource.service svc ∈ e.Resources → svc.Name ≠ e.Integration.Name) →
      e.Resources.GetService (fun svc => svc.Name == e.Integration.Name) = none := by
    intro h
    rw [GetService_eq_none_iff]
    intro svc hm
    simpa using h svc hm
  have hsome : ∀ p, e.Resources.GetService (fun svc => svc.Name == e.Integration.Name) = some p →
      (t.Apply e).env.Resources.length = e.Resources.length ∧
        Resource.service p.2 ∈ e.Resources ∧ p.2.Name = e.Integration.Name := by
    intro p hp
    obtain ⟨svc', -, hres, -⟩ := Apply_of_found t e p.1 p.2 hp
    obtain ⟨hget, hf⟩ := GetService_eq_some _ _ p.1 p.2 hp
    refine ⟨by rw [hres]; simp [ResourceSet.setService], List.getElem?_mem hget, ?_⟩
    simpa using hf
  refine ⟨?_, ?_, ?_, ?_, rfl, rfl, rfl, rfl⟩
  · constructor
    · intro hlen svc hm hname
      cases hg : e.Resources.GetService (fun svc => svc.Name == e.Integration.Name) with
      | none =>
        have := (GetService_eq_none_iff _ _).mp hg svc hm
        simp [hname] at this
      | some p =>
        have := (hsome p hg).1
        omega
    · intro h
      rw [Apply_of_not_found t e (hnone h)]
      simp
  · intro h
    refine ⟨t.freshService e, ?_, rfl, rfl, ?_, rfl⟩
    · rw [Apply_of_not_found t e (hnone h)]
    · simp [serviceTrait.freshService, StringMap.get]
  · rintro ⟨svc, hm, hname⟩
    cases hg : e.Resources.GetService (fun svc => svc.Name == e.Integration.Name) with
    | none =>
      have := (GetService_eq_none_iff _ _).mp hg svc hm
      simp [hname] at this
    | some p => exact (hsome p hg).1
  · intro n hn hle
    obtain ⟨m, rfl⟩ : ∃ m, n = m + 1 := ⟨n - 1, by omega⟩
    have hstep : (t.Apply e).env.Resources.serviceCount e.Integration.Name = 1 := by
      rw [Apply_serviceCount]
      split_ifs with hz
      · rfl
      · omega
    simp only [serviceTrait.ApplyN]
    split_ifs
    · exact hstep
    · have := ApplyN_serviceCount_one t m (t.Apply e).env
        (by rw [Apply_Integration]; exact hstep)
      rw [Apply_Integration] at this
      exact this

/-- Witness of claim C10: on an Environment with nothing staged the default trait stages one
Service named as the Integration; on one where such a Service is staged nothing is appended;
and three successive calls leave exactly one such Service in both. -/
theorem Apply_get_or_create_witness :
    (newServiceTrait.Apply (sampleEnvironment IntegrationPhaseDeploying)).env.Resources.length =
        1 ∧
      (newServiceTrait.Apply stagedEnvironment).env.Resources.length = 2 ∧
      (newServiceTrait.ApplyN 3
        (sampleEnvironment IntegrationPhaseDeploying)).Resources.serviceCount "routes" = 1 ∧
      (newServiceTrait.ApplyN 3 stagedEnvironment).Resources.serviceCount "routes" = 1 :=
  ⟨((Apply_get_or_create newServiceTrait (sampleEnvironment IntegrationPhaseDeploying)).1).mpr
      (by simp [sampleEnvironment]),
    (Apply_get_or_create newServiceTrait stagedEnvironment).2.2.1
      ⟨_, List.mem_cons_of_mem _ (List.mem_cons_self _ _), rfl⟩,
    (Apply_get_or_create newServiceTrait (sampleEnvironment IntegrationPhaseDeploying)).2.2.2.1
      3 (by decide) (by decide),
    (Apply_get_or_create newServiceTrait stagedEnvironment).2.2.2.1 3 (by decide) (by decide)⟩

/-! ## Service trait Configure: frame -/

/-- Claim C14: in every branch of `Configure` (explicitly disabled, wrong phase, source
resolution error, HTTP not required, enabled) the ResourceSet and the list of PostProcessors
afterwards equal those before, and so do the catalog, the name, namespace and spec of the
Integration, its phase, its dependencies and every Condition of a type other than
ServiceAvailable: the only state `Configure` may change is the ServiceAvailable Condition. -/
theorem Configure_frame (t : serviceTrait) (x : External) (e : Environment) :
    (t.Configure x e).env.Resources = e.Resources ∧
      (t.Configure x e).env.PostProcessors = e.PostProcessors ∧
      (t.Configure x e).env.CamelCatalog = e.CamelCatalog ∧
      (t.Configure x e).env.Integration.Name = e.Integration.Name ∧
      (t.Configure x e).env.Integration.Namespace = e.Integration.Namespace ∧
      (t.Configure x e).env.Integration.Spec = e.Integration.Spec ∧
      (t.Configure x e).env.Integration.Status.Phase = e.Integration.Status.Phase ∧
      (t.Configure x e).env.Integration.Status.Dependencies =
        e.Integration.Status.Dependencies ∧
      (t.Configure x e).env.Integration.Status.Conditions.filter
          (fun c => !(c.Kind == "ServiceAvailable")) =
        e.Integration.Status.Conditions.filter (fun c => !(c.Kind == "ServiceAvailable")) := by
  have hset : ∀ st rs msg,
      (e.SetCondition IntegrationConditionServiceAvailable st rs msg).Resources = e.Resources ∧
      (e.SetCondition IntegrationConditionServiceAvailable st rs msg).PostProcessors =
        e.PostProcessors ∧
      (e.SetCondition IntegrationConditionServiceAvailable st rs msg).CamelCatalog =
        e.CamelCatalog ∧
      (e.SetCondition IntegrationConditionServiceAvailable st rs msg).Integration.Name =
        e.Integration.Name ∧
      (e.SetCondition IntegrationConditionServiceAvailable st rs msg).Integration.Namespace =
        e.Integration.Namespace ∧
      (e.SetCondition IntegrationConditionServiceAvailable st rs msg).Integration.Spec =
        e.Integration.Spec ∧
      (e.SetCondition IntegrationConditionServiceAvailable st rs msg).Integration.Status.Phase =
        e.Integration.Status.Phase ∧
      (e.SetCondition IntegrationConditionServiceAvailable st rs
        msg).Integration.Status.Dependencies = e.Integration.Status.Dependencies ∧
      (e.SetCondition IntegrationConditionServiceAvailable st rs
        msg).Integration.Status.Conditions.filter (fun c => !(c.Kind == "ServiceAvailable")) =
        e.Integration.Status.Conditions.filter (fun c => !(c.Kind == "ServiceAvailable")) := by
    intro st rs msg
    have hf := SetCondition_frame e.Integration.Status "ServiceAvailable" st rs msg
    exact ⟨rfl, rfl, rfl, rfl, rfl, rfl, hf.2.1, hf.2.2, hf.1⟩
  have hid : e.Resources = e.Resources ∧ e.PostProcessors = e.PostProcessors ∧
      e.CamelCatalog = e.CamelCatalog ∧ e.Integration.Name = e.Integration.Name ∧
      e.Integration.Namespace = e.Integration.Namespace ∧
      e.Integration.Spec = e.Integration.Spec ∧
      e.Integration.Status.Phase = e.Integration.Status.Phase ∧
      e.Integration.Status.Dependencies = e.Integration.Status.Dependencies ∧
      e.Integration.Status.Conditions.filter (fun c => !(c.Kind == "ServiceAvailable")) =
        e.Integration.Status.Conditions.filter (fun c => !(c.Kind == "ServiceAvailable")) :=
    ⟨rfl, rfl, rfl, rfl, rfl, rfl, rfl, rfl, rfl⟩
  unfold serviceTrait.Configure
  split_ifs
  · exact hset _ _ _
  · exact hid
  · split
    · exact hset _ _ _
    · dsimp only
      split_ifs
      · exact hset _ _ _
      · exact hid
  · exact hid

/-! ## Service trait Apply: the Service after the call -/

/-- A write through the pointer `GetService` returned, with a value the filter still accepts,
is what `GetService` finds afterwards, at the same position. -/
theorem GetService_setService (rs : ResourceSet) (filter : Service → Bool) (i : Nat)
    (svc svc' : Service) (h : rs.GetService filter = some (i, svc))
    (hf : filter svc' = true) :
    (rs.setService i svc').GetService filter = some (i, svc') := by
  induction rs generalizing i with
  | nil => simp [ResourceSet.GetService] at h
  | cons r rest ih =>
    have htail : ∀ p, ResourceSet.GetService rest filter = some p →
        (p.1 + 1, p.2) = (i, svc) →
        ∃ j, i = j + 1 ∧
          ResourceSet.GetService (rest.set j (.service svc')) filter = some (j, svc') := by
      intro p hp heq
      obtain ⟨j, s⟩ := p
      simp only [Prod.mk.injEq] at heq
      obtain ⟨hj, hs⟩ := heq
      subst hj hs
      exact ⟨j, rfl, by simpa [ResourceSet.setService] using ih j hp⟩
    cases r with
    | service s =>
      by_cases hs : filter s = true
      · simp only [ResourceSet.GetService, hs, if_true, Option.some.injEq, Prod.mk.injEq] at h
        obtain ⟨hi, hsv⟩ := h
        subst hi hsv
        simp [ResourceSet.setService, ResourceSet.GetService, hf]
      · simp only [Bool.not_eq_true] at hs
        have hg : ResourceSet.GetService (.service s :: rest) filter =
            (ResourceSet.GetService rest filter).map (fun p => (p.1 + 1, p.2)) := by
          simp [ResourceSet.GetService, hs]
        rw [hg, Option.map_eq_some'] at h
        obtain ⟨p, hp, heq⟩ := h
        obtain ⟨j, rfl, hj⟩ := htail p hp heq
        simp [ResourceSet.setService, ResourceSet.GetService, hs, hj]
    | deployment d =>
      simp only [ResourceSet.GetService, Option.map_eq_some'] at h
      obtain ⟨p, hp, heq⟩ := h
      obtain ⟨j, rfl, hj⟩ := htail p hp heq
      simp [ResourceSet.setService, ResourceSet.GetService, hj]
    | other k n =>
      simp only [ResourceSet.GetService, Option.map_eq_some'] at h
      obtain ⟨p, hp, heq⟩ := h
      obtain ⟨j, rfl, hj⟩ := htail p hp heq
      simp [ResourceSet.setService, ResourceSet.GetService, hj]

/-- When `GetService` finds nothing, a Service the filter accepts that is appended is what
`GetService` finds afterwards, at the end. -/
theorem GetService_append_service (rs : ResourceSet) (filter : Service → Bool)
    (svc' : Service) (h : rs.GetService filter = none) (hf : filter svc' = true) :
    ResourceSet.GetService (rs ++ [.service svc']) filter = some (rs.length, svc') := by
  induction rs with
  | nil => simp [ResourceSet.GetService, hf]
  | cons r rest ih =>
    cases r with
    | service s =>
      by_cases hs : filter s = true
      · simp [ResourceSet.GetService, hs] at h
      · simp only [Bool.not_eq_true] at hs
        have hg : ResourceSet.GetService (.service s :: rest) filter =
            (ResourceSet.GetService rest filter).map (fun p => (p.1 + 1, p.2)) := by
          simp [ResourceSet.GetService, hs]
        rw [hg, Option.map_eq_none'] at h
        simp [ResourceSet.GetService, hs, ih h]
    | deployment d =>
      simp only [ResourceSet.GetService, Option.map_eq_none'] at h
      simp [ResourceSet.GetService, ih h]
    | other k n =>
      simp only [ResourceSet.GetService, Option.map_eq_none'] at h
      simp [ResourceSet.GetService, ih h]

/-- With a Service named as the Integration staged whose label map is `nil`, `Apply` appends
the port to it and then faults: no PostProcessor is registered. -/
theorem Apply_of_found_nil (t : serviceTrait) (e : Environment) (i : Nat) (svc : Service)
    (h : e.Resources.GetService (fun svc => svc.Name == e.Integration.Name) = some (i, svc))
    (hl : svc.Labels = none) :
    t.Apply e =
      { env := { e with
          Resources := e.Resources.setService i
            { svc with Ports := svc.Ports ++ [t.servicePort] } },
        fault := true, err := none } := by
  simp [serviceTrait.Apply, h, hl, serviceTrait.servicePort]

/-- With a Service named as the Integration staged whose label map is initialised, `Apply`
appends the port to it, sets the service type label and registers the PostProcessor. -/
theorem Apply_of_found_labels (t : serviceTrait) (e : Environment) (i : Nat) (svc : Service)
    (labels : StringMap)
    (h : e.Resources.GetService (fun svc => svc.Name == e.Integration.Name) = some (i, svc))
    (hl : svc.Labels = some labels) :
    t.Apply e =
      { env := { e with
          Resources := e.Resources.setService i
            { svc with
              Ports := svc.Ports ++ [t.servicePort]
              Labels := some (labels.set "camel.apache.org/service.type" ServiceTypeUser) }
          PostProcessors := e.PostProcessors ++
            [{ t := t, svcName := svc.Name, port := t.servicePort }] },
        fault := false, err := none } := by
  simp [serviceTrait.Apply, h, hl, serviceTrait.servicePort]

/-- Reading back the key just written gives the value written. -/
theorem StringMap_get_set_self (m : StringMap) (k v : String) :
    StringMap.get (StringMap.set m k v) k = some v := by
  induction m with
  | nil => simp [StringMap.set, StringMap.get]
  | cons kv rest ih =>
    obtain ⟨k', v'⟩ := kv
    by_cases hk : k' = k
    · simp [StringMap.set, StringMap.get, hk]
    · simp [StringMap.set, StringMap.get, hk, ih]

/-- A write leaves what is read under every other key as it was. -/
theorem StringMap_get_set_other (m : StringMap) (k v k₀ : String) (hne : k₀ ≠ k) :
    StringMap.get (StringMap.set m k v) k₀ = StringMap.get m k₀ := by
  induction m with
  | nil =>
    have : ¬ (k = k₀) := fun h => hne h.symm
    simp [StringMap.set, StringMap.get, this]
  | cons kv rest ih =>
    obtain ⟨k', v'⟩ := kv
    by_cases hk : k' = k
    · subst hk
      have : ¬ (k' = k₀) := fun h => hne h.symm
      simp [StringMap.set, StringMap.get, this]
    · by_cases hk₀ : k' = k₀
      · subst hk₀
        simp [StringMap.set, StringMap.get, hk]
      · simp [StringMap.set, StringMap.get, hk, hk₀, ih]

/-- A write through a Service pointer leaves the staged containers as they were. -/
theorem containers_setService (rs : ResourceSet) (i : Nat) (svc svc' : Service)
    (hget : rs[i]? = some (.service svc)) :
    (rs.setService i svc').containers = rs.containers := by
  induction rs generalizing i with
  | nil => simp at hget
  | cons r rest ih =>
    cases i with
    | zero =>
      simp only [List.getElem?_cons_zero, Option.some.injEq] at hget
      subst hget
      simp [ResourceSet.setService, ResourceSet.containers]
    | succ j =>
      simp only [List.getElem?_cons_succ] at hget
      have := ih j hget
      simp only [ResourceSet.setService, List.set_cons_succ] at this ⊢
      cases r <;> simp [ResourceSet.containers, this]

/-- Appending a Service leaves the staged containers as they were. -/
theorem containers_append_service (rs : ResourceSet) (svc : Service) :
    ResourceSet.containers (rs ++ [.service svc]) = rs.containers := by
  induction rs with
  | nil => simp [ResourceSet.containers]
  | cons r rest ih => cases r <;> simp [ResourceSet.containers, ih]

/-- After `Apply`, at the fault too, the Service `GetService` finds under the name of the
Integration is the one `Apply` held, at its position, with the writes of `Apply` applied. -/
theorem Apply_GetService (t : serviceTrait) (e : Environment) :
    (t.Apply e).env.Resources.GetService (fun svc => svc.Name == e.Integration.Name) =
      some (e.integrationService.1, t.appliedService e.integrationService.2) := by
  cases h : e.Resources.GetService (fun svc => svc.Name == e.Integration.Name) with
  | none =>
    have hfresh : t.freshService e = t.appliedService (getServiceFor e) := by
      simp [serviceTrait.freshService, serviceTrait.appliedService, getServiceFor,
        serviceTrait.servicePort, StringMap.set]
    have his : e.integrationService = (e.Resources.length, getServiceFor e) := by
      simp [Environment.integrationService, h]
    rw [Apply_of_not_found t e h, his, ← hfresh]
    exact GetService_append_service _ _ _ h (by simp [serviceTrait.freshService, getServiceFor])
  | some p =>
    obtain ⟨i, svc⟩ := p
    have his : e.integrationService = (i, svc) := by
      simp [Environment.integrationService, h]
    obtain ⟨-, hf⟩ := GetService_eq_some _ _ i svc h
    rw [his]
    cases hl : svc.Labels with
    | none =>
      rw [Apply_of_found_nil t e i svc h hl]
      have : t.appliedService svc = { svc with Ports := svc.Ports ++ [t.servicePort] } := by
        simp [serviceTrait.appliedService, hl]
      rw [this]
      exact GetService_setService _ _ i svc _ h hf
    | some labels =>
      rw [Apply_of_found_labels t e i svc labels h hl]
      have : t.appliedService svc =
          { svc with
            Ports := svc.Ports ++ [t.servicePort]
            Labels := some (labels.set "camel.apache.org/service.type" ServiceTypeUser) } := by
        simp [serviceTrait.appliedService, hl]
      rw [this]
      exact GetService_setService _ _ i svc _ h hf

/-- The conversion `int32` is the identity on the range of `int32`. -/
theorem int32_of_inRange (n : Int) (hlo : -2 ^ 31 ≤ n) (hhi : n < 2 ^ 31) : int32 n = n := by
  unfold int32
  omega

/-- Claim C11, as amended: after `Apply`, also when it ends in the label fault, the Service
of the Integration (the staged one `GetService` finds, else the fresh one, which has no
port) sits where it was and has its previous ports, in their order, followed by exactly one
new port: name `PortName`, protocol TCP, target the string `ContainerPortName`, and number
`int32(Port)`, which is `Port` whenever `Port` lies in the range of `int32`.  With the trait
defaults the port is http/80 targeting the name "http". -/
theorem Apply_appends_port (t : serviceTrait) (e : Environment) :
    (∃ svc' : Service,
        (t.Apply e).env.Resources.GetService (fun svc => svc.Name == e.Integration.Name) =
          some (e.integrationService.1, svc') ∧
        svc'.Ports = e.integrationService.2.Ports ++
          [{ Name := t.PortName, Port := int32 t.Port, Protocol := "TCP",
             TargetPort := .str t.ContainerPortName }]) ∧
      (∀ i svc, e.Resources.GetService (fun svc => svc.Name == e.Integration.Name) =
          some (i, svc) → e.integrationService = (i, svc)) ∧
      (e.Resources.GetService (fun svc => svc.Name == e.Integration.Name) = none →
        e.integrationService.1 = e.Resources.length ∧ e.integrationService.2.Ports = []) ∧
      (-2 ^ 31 ≤ t.Port → t.Port < 2 ^ 31 → int32 t.Port = t.Port) ∧
      (newServiceTrait.PortName = "http" ∧ int32 newServiceTrait.Port = 80 ∧
        IntOrString.FromString newServiceTrait.ContainerPortName = .str "http") := by
  refine ⟨⟨_, Apply_GetService t e, rfl⟩, ?_, ?_, int32_of_inRange t.Port, ?_⟩
  · intro i svc h
    simp [Environment.integrationService, h]
  · intro h
    simp [Environment.integrationService, h, getServiceFor]
  · decide

/-- Witness of claim C11: the default trait on the Environment where a Service with the
prometheus port is staged: the port http/80 comes after it. -/
theorem Apply_appends_port_witness :
    (∃ svc' : Service,
        (newServiceTrait.Apply stagedEnvironment).env.Resources.GetService
            (fun svc => svc.Name == stagedEnvironment.Integration.Name) =
          some (stagedEnvironment.integrationService.1, svc') ∧
        svc'.Ports = stagedEnvironment.integrationService.2.Ports ++
          [{ Name := "http", Port := int32 80, Protocol := "TCP", TargetPort := .str "http" }]) ∧
      int32 newServiceTrait.Port = newServiceTrait.Port :=
  ⟨(Apply_appends_port newServiceTrait stagedEnvironment).1,
    (Apply_appends_port newServiceTrait stagedEnvironment).2.2.2.1 (by decide) (by decide)⟩

/-- Claim C11 as stated fails: with `Port` set to 4294967376 the port `Apply` appends to the
fresh Service has number 80, not the trait's `Port`. -/
theorem Apply_port_truncated :
    ((widePortTrait.Apply (sampleEnvironment IntegrationPhaseDeploying)).env.Resources.GetService
        (fun svc => svc.Name == "routes")).map (fun p => p.2.Ports.map (fun q => q.Port)) =
        some [80] ∧
      widePortTrait.Port = 4294967376 ∧
      ¬ (((widePortTrait.Apply
        (sampleEnvironment IntegrationPhaseDeploying)).env.Resources.GetService
          (fun svc => svc.Name == "routes")).map (fun p => p.2.Ports.map (fun q => q.Port)) =
        some [widePortTrait.Port]) := by
  decide

/-- When every staged Service named as the Integration has an initialised label map, the one
`GetService` finds has. -/
theorem found_labels_of_all (e : Environment)
    (hlabels : ∀ svc, Resource.service svc ∈ e.Resources → svc.Name = e.Integration.Name →
      svc.Labels ≠ none)
    (i : Nat) (svc : Service)
    (h : e.Resources.GetService (fun svc => svc.Name == e.Integration.Name) = some (i, svc)) :
    svc.Name = e.Integration.Name ∧ ∃ labels, svc.Labels = some labels := by
  obtain ⟨hget, hf⟩ := GetService_eq_some _ _ i svc h
  have hname : svc.Name = e.Integration.Name := by simpa using hf
  refine ⟨hname, ?_⟩
  have := hlabels svc (List.getElem?_mem hget) hname
  cases hl : svc.Labels with
  | none => exact absurd hl this
  | some labels => exact ⟨labels, rfl⟩

/-- Claim C18, as amended: on every Environment in which every staged Service named as the
Integration has an initialised (non-nil) label map, whether or not a container is staged,
`Apply` ends without fault and without error, leaves every staged container (and its ports)
as it was, and appends exactly one PostProcessor at the end of the list, the earlier ones
kept in their order; the PostProcessor is registered and not run: the Integration and its
Conditions are as before. -/
theorem Apply_registers_PostProcessor (t : serviceTrait) (e : Environment)
    (hlabels : ∀ svc, Resource.service svc ∈ e.Resources → svc.Name = e.Integration.Name →
      svc.Labels ≠ none) :
    (t.Apply e).fault = false ∧
      (t.Apply e).err = none ∧
      (t.Apply e).env.Resources.containers = e.Resources.containers ∧
      (t.Apply e).env.PostProcessors = e.PostProcessors ++
        [{ t := t, svcName := e.Integration.Name,
           port := { Name := t.PortName, Port := int32 t.Port, Protocol := "TCP",
                     TargetPort := .str t.ContainerPortName } }] ∧
      (t.Apply e).env.Integration = e.Integration := by
  cases h : e.Resources.GetService (fun svc => svc.Name == e.Integration.Name) with
  | none =>
    rw [Apply_of_not_found t e h]
    exact ⟨rfl, rfl, containers_append_service _ _, rfl, rfl⟩
  | some p =>
    obtain ⟨i, svc⟩ := p
    obtain ⟨hname, labels, hl⟩ := found_labels_of_all e hlabels i svc h
    obtain ⟨hget, -⟩ := GetService_eq_some _ _ i svc h
    rw [Apply_of_found_labels t e i svc labels h hl]
    refine ⟨rfl, rfl, containers_setService _ _ _ _ hget, ?_, rfl⟩
    simp [hname, serviceTrait.servicePort, ProtocolTCP, IntOrString.FromString]

/-- Witness of claim C18: the default trait on an Environment with nothing staged, no
container either. -/
theorem Apply_registers_PostProcessor_witness :
    (newServiceTrait.Apply (sampleEnvironment IntegrationPhaseDeploying)).fault = false ∧
      (newServiceTrait.Apply (sampleEnvironment IntegrationPhaseDeploying)).err = none ∧
      (newServiceTrait.Apply
        (sampleEnvironment IntegrationPhaseDeploying)).env.PostProcessors.length = 1 :=
  have h := Apply_registers_PostProcessor newServiceTrait
    (sampleEnvironment IntegrationPhaseDeploying) (by simp [sampleEnvironment])
  ⟨h.1, h.2.1, by rw [h.2.2.2.1]; rfl⟩

/-- Claim C18 as stated fails: on the Environment whose staged Service named as the
Integration has a `nil` label map, `Apply` ends in a runtime fault and no PostProcessor is
appended. -/
theorem Apply_nil_labels_no_PostProcessor :
    (newServiceTrait.Apply nilLabelsEnvironment).fault = true ∧
      (newServiceTrait.Apply nilLabelsEnvironment).env.PostProcessors =
        nilLabelsEnvironment.PostProcessors ∧
      (newServiceTrait.Apply nilLabelsEnvironment).env.PostProcessors.length = 0 := by
  decide

/-- Claim C19: `Apply` ends in a runtime fault exactly when the staged Service it finds under
the name of the Integration has a `nil` label map.  On every Environment in which every
staged Service named as the Integration has an initialised label map, `Apply` ends without
fault and without error, and afterwards the Service of the Integration has the label
camel.apache.org/service.type set to the user service type and every other label as before.
The Service `getServiceFor` creates has an initialised label map. -/
theorem Apply_marks_user_service (t : serviceTrait) (e : Environment) :
    ((t.Apply e).fault = true ↔
        ∃ i svc, e.Resources.GetService (fun svc => svc.Name == e.Integration.Name) =
          some (i, svc) ∧ svc.Labels = none) ∧
      ((∀ svc, Resource.service svc ∈ e.Resources → svc.Name = e.Integration.Name →
          svc.Labels ≠ none) →
        (t.Apply e).fault = false ∧
          (t.Apply e).err = none ∧
          ∃ (svc' : Service) (labels labels' : StringMap),
            e.integrationService.2.Labels = some labels ∧
            (t.Apply e).env.Resources.GetService (fun svc => svc.Name == e.Integration.Name) =
              some (e.integrationService.1, svc') ∧
            svc'.Labels = some labels' ∧
            labels'.get "camel.apache.org/service.type" = some ServiceTypeUser ∧
            ∀ k, k ≠ "camel.apache.org/service.type" → labels'.get k = labels.get k) ∧
      (getServiceFor e).Labels ≠ none := by
  refine ⟨?_, ?_, by simp [getServiceFor]⟩
  · cases h : e.Resources.GetService (fun svc => svc.Name == e.Integration.Name) with
    | none =>
      rw [Apply_of_not_found t e h]
      simp
    | some p =>
      obtain ⟨i, svc⟩ := p
      cases hl : svc.Labels with
      | none =>
        rw [Apply_of_found_nil t e i svc h hl]
        simp only [true_iff]
        exact ⟨i, svc, rfl, hl⟩
      | some labels =>
        rw [Apply_of_found_labels t e i svc labels h hl]
        simp [hl]
  · intro hlabels
    have hprev : ∃ labels, e.integrationService.2.Labels = some labels := by
      cases h : e.Resources.GetService (fun svc => svc.Name == e.Integration.Name) with
      | none => exact ⟨_, by simp [Environment.integrationService, h, getServiceFor]; rfl⟩
      | some p =>
        obtain ⟨i, svc⟩ := p
        obtain ⟨-, labels, hl⟩ := found_labels_of_all e hlabels i svc h
        exact ⟨labels, by simp [Environment.integrationService, h, hl]⟩
    have hok : (t.Apply e).fault = false ∧ (t.Apply e).err = none := by
      cases h : e.Resources.GetService (fun svc => svc.Name == e.Integration.Name) with
      | none => rw [Apply_of_not_found t e h]; exact ⟨rfl, rfl⟩
      | some p =>
        obtain ⟨i, svc⟩ := p
        obtain ⟨-, labels, hl⟩ := found_labels_of_all e hlabels i svc h
        rw [Apply_of_found_labels t e i svc labels h hl]; exact ⟨rfl, rfl⟩
    obtain ⟨labels, hl⟩ := hprev
    refine ⟨hok.1, hok.2, t.appliedService e.integrationService.2, labels,
      labels.set "camel.apache.org/service.type" ServiceTypeUser, hl, Apply_GetService t e,
      by simp [serviceTrait.appliedService, hl], StringMap_get_set_self _ _ _,
      fun k hk => StringMap_get_set_other _ _ _ k hk⟩

/-- Witness of claim C19: the default trait on the Environment whose staged Service named as
the Integration carries the integration label. -/
theorem Apply_marks_user_service_witness :
    (newServiceTrait.Apply stagedEnvironment).fault = false ∧
      (newServiceTrait.Apply stagedEnvironment).err = none ∧
      ∃ (svc' : Service) (labels labels' : StringMap),
        stagedEnvironment.integrationService.2.Labels = some labels ∧
        (newServiceTrait.Apply stagedEnvironment).env.Resources.GetService
            (fun svc => svc.Name == stagedEnvironment.Integration.Name) =
          some (stagedEnvironment.integrationService.1, svc') ∧
        svc'.Labels = some labels' ∧
        labels'.get "camel.apache.org/service.type" = some ServiceTypeUser ∧
        ∀ k, k ≠ "camel.apache.org/service.type" → labels'.get k = labels.get k :=
  (Apply_marks_user_service newServiceTrait stagedEnvironment).2.1
    (by
      intro svc hm hname
      simp [stagedEnvironment] at hm
      subst hm
      simp)

/-! ## Service trait PostProcessor: the integration container -/

/-- The search `firstContainer` finds nothing exactly when the filter rejects every entry. -/
theorem firstContainer_eq_none_iff (filter : Container → Bool) (l : List Container) :
    firstContainer filter l = none ↔ ∀ x ∈ l, filter x = false := by
  induction l with
  | nil => simp [firstContainer]
  | cons a rest ih =>
    by_cases ha : filter a = true
    · simp [firstContainer, ha]
    · simp only [Bool.not_eq_true] at ha
      simp [firstContainer, ha, ih]

/-- What `firstContainer` finds is an entry the filter accepts, at the position it gives. -/
theorem firstContainer_eq_some (filter : Container → Bool) (l : List Container) (j : Nat)
    (x : Container) (h : firstContainer filter l = some (j, x)) :
    l[j]? = some x ∧ filter x = true := by
  induction l generalizing j with
  | nil => simp [firstContainer] at h
  | cons a rest ih =>
    by_cases ha : filter a = true
    · simp only [firstContainer, ha, if_true, Option.some.injEq, Prod.mk.injEq] at h
      obtain ⟨hj, hx⟩ := h
      subst hj hx
      simp [ha]
    · simp only [Bool.not_eq_true] at ha
      simp only [firstContainer, ha, Bool.false_eq_true, if_false, Option.map_eq_some'] at h
      obtain ⟨q, hq, heq⟩ := h
      obtain ⟨j', x'⟩ := q
      simp only [Prod.mk.injEq] at heq
      obtain ⟨hj, hx⟩ := heq
      subst hj hx
      simpa using ih j' hq

/-- A write at the position `firstContainer` gave, with a value the filter still accepts, is
what `firstContainer` finds afterwards. -/
theorem firstContainer_set (filter : Container → Bool) (l : List Container) (j : Nat)
    (x x' : Container) (h : firstContainer filter l = some (j, x)) (hf : filter x' = true) :
    firstContainer filter (l.set j x') = some (j, x') := by
  induction l generalizing j with
  | nil => simp [firstContainer] at h
  | cons a rest ih =>
    by_cases ha : filter a = true
    · simp only [firstContainer, ha, if_true, Option.some.injEq, Prod.mk.injEq] at h
      obtain ⟨hj, hx⟩ := h
      subst hj hx
      simp [firstContainer, hf]
    · simp only [Bool.not_eq_true] at ha
      simp only [firstContainer, ha, Bool.false_eq_true, if_false, Option.map_eq_some'] at h
      obtain ⟨q, hq, heq⟩ := h
      obtain ⟨j', x₀⟩ := q
      simp only [Prod.mk.injEq] at heq
      obtain ⟨hj, hx⟩ := heq
      subst hj hx
      simp [firstContainer, ha, ih j' hq]

/-- The lookup `GetContainer` finds nothing exactly when the filter rejects every container
entry of every staged Deployment-like object. -/
theorem GetContainer_eq_none_iff (rs : ResourceSet) (filter : Container → Bool) :
    rs.GetContainer filter = none ↔
      ∀ d, Resource.deployment d ∈ rs → ∀ x ∈ d.Containers, filter x = false := by
  induction rs with
  | nil => simp [ResourceSet.GetContainer]
  | cons r rest ih =>
    cases r with
    | deployment d =>
      cases hd : firstContainer filter d.Containers with
      | none =>
        have hd' := (firstContainer_eq_none_iff filter d.Containers).mp hd
        simp only [ResourceSet.GetContainer, hd, Option.map_eq_none', ih]
        constructor
        · intro h d' hm
          rcases List.mem_cons.mp hm with heq | hm
          · cases heq; exact hd'
          · exact h d' hm
        · intro h d' hm
          exact h d' (List.mem_cons_of_mem _ hm)
      | some q =>
        obtain ⟨j, x⟩ := q
        obtain ⟨hget, hf⟩ := firstContainer_eq_some filter d.Containers j x hd
        simp only [ResourceSet.GetContainer, hd]
        constructor
        · intro h; cases h
        · intro h
          have := h d (List.mem_cons_self _ _) x (List.getElem?_mem hget)
          simp [hf] at this
    | service s =>
      simp only [ResourceSet.GetContainer, Option.map_eq_none', ih]
      simp
    | other k n =>
      simp only [ResourceSet.GetContainer, Option.map_eq_none', ih]
      simp

/-- What `GetContainer` finds is a container entry the filter accepts. -/
theorem GetContainer_accepts (rs : ResourceSet) (filter : Container → Bool) (i j : Nat)
    (x : Container) (h : rs.GetContainer filter = some (i, j, x)) : filter x = true := by
  induction rs generalizing i with
  | nil => simp [ResourceSet.GetContainer] at h
  | cons r rest ih =>
    have htail : ∀ q, ResourceSet.GetContainer rest filter = some q →
        (q.1 + 1, q.2) = (i, j, x) → filter x = true := by
      intro q hq heq
      obtain ⟨i', j', x₀⟩ := q
      simp only [Prod.mk.injEq] at heq
      obtain ⟨hi, hj, hx⟩ := heq
      subst hi hj hx
      exact ih i' hq
    cases r with
    | deployment d =>
      cases hd : firstContainer filter d.Containers with
      | none =>
        simp only [ResourceSet.GetContainer, hd, Option.map_eq_some'] at h
        obtain ⟨q, hq, heq⟩ := h
        exact htail q hq heq
      | some q =>
        obtain ⟨j', x₀⟩ := q
        simp only [ResourceSet.GetContainer, hd, Option.some.injEq, Prod.mk.injEq] at h
        obtain ⟨hi, hj, hx⟩ := h
        subst hi hj hx
        exact (firstContainer_eq_some filter d.Containers j' x₀ hd).2
    | service s =>
      simp only [ResourceSet.GetContainer, Option.map_eq_some'] at h
      obtain ⟨q, hq, heq⟩ := h
      exact htail q hq heq
    | other k n =>
      simp only [ResourceSet.GetContainer, Option.map_eq_some'] at h
      obtain ⟨q, hq, heq⟩ := h
      exact htail q hq heq

/-- What `GetContainer` finds is accepted by the filter, and a write through the pointer it
returned, with a value the filter still accepts, is what `GetContainer` finds afterwards, at
the same position. -/
theorem GetContainer_setContainer (rs : ResourceSet) (filter : Container → Bool) (i j : Nat)
    (x x' : Container) (h : rs.GetContainer filter = some (i, j, x))
    (hf : filter x' = true) :
    filter x = true ∧ (rs.setContainer i j x').GetContainer filter = some (i, j, x') := by
  induction rs generalizing i with
  | nil => simp [ResourceSet.GetContainer] at h
  | cons r rest ih =>
    have htail : ∀ q, ResourceSet.GetContainer rest filter = some q →
        (q.1 + 1, q.2) = (i, j, x) →
        filter x = true ∧ ∃ i', i = i' + 1 ∧
          ResourceSet.GetContainer (ResourceSet.setContainer rest i' j x') filter =
            some (i', j, x') := by
      intro q hq heq
      obtain ⟨i', j', x₀⟩ := q
      simp only [Prod.mk.injEq] at heq
      obtain ⟨hi, hj, hx⟩ := heq
      subst hi hj hx
      exact ⟨(ih i' hq).1, i', rfl, (ih i' hq).2⟩
    cases r with
    | deployment d =>
      cases hd : firstContainer filter d.Containers with
      | none =>
        simp only [ResourceSet.GetContainer, hd, Option.map_eq_some'] at h
        obtain ⟨q, hq, heq⟩ := h
        obtain ⟨hfx, i', rfl, hi'⟩ := htail q hq heq
        refine ⟨hfx, ?_⟩
        simp only [ResourceSet.setContainer, List.modify_succ_cons] at hi' ⊢
        simp [ResourceSet.GetContainer, hd, hi']
      | some q =>
        obtain ⟨j', x₀⟩ := q
        simp only [ResourceSet.GetContainer, hd, Option.some.injEq, Prod.mk.injEq] at h
        obtain ⟨hi, hj, hx⟩ := h
        subst hi hj hx
        refine ⟨(firstContainer_eq_some filter d.Containers j' x₀ hd).2, ?_⟩
        simp [ResourceSet.setContainer, ResourceSet.GetContainer,
          firstContainer_set filter d.Containers j' x₀ x' hd hf]
    | service s =>
      simp only [ResourceSet.GetContainer, Option.map_eq_some'] at h
      obtain ⟨q, hq, heq⟩ := h
      obtain ⟨hfx, i', rfl, hi'⟩ := htail q hq heq
      refine ⟨hfx, ?_⟩
      simp only [ResourceSet.setContainer, List.modify_succ_cons] at hi' ⊢
      simp [ResourceSet.GetContainer, hi']
    | other k n =>
      simp only [ResourceSet.GetContainer, Option.map_eq_some'] at h
      obtain ⟨q, hq, heq⟩ := h
      obtain ⟨hfx, i', rfl, hi'⟩ := htail q hq heq
      refine ⟨hfx, ?_⟩
      simp only [ResourceSet.setContainer, List.modify_succ_cons] at hi' ⊢
      simp [ResourceSet.GetContainer, hi']

/-- The PostProcessor `Apply` appends is the closure over the trait, the name of the Service
(which is the name of the Integration) and the port built from the trait. -/
theorem Apply_registered (t : serviceTrait) (e : Environment) (p : PostProcessor)
    (hreg : (t.Apply e).env.PostProcessors = e.PostProcessors ++ [p]) :
    p = { t := t, svcName := e.Integration.Name, port := t.servicePort } := by
  cases h : e.Resources.GetService (fun svc => svc.Name == e.Integration.Name) with
  | none =>
    rw [Apply_of_not_found t e h] at hreg
    have := List.append_cancel_left hreg
    simp only [List.cons.injEq, and_true] at this
    rw [← this]
    rfl
  | some q =>
    obtain ⟨i, svc⟩ := q
    obtain ⟨-, hf⟩ := GetService_eq_some _ _ i svc h
    have hname : svc.Name = e.Integration.Name := by simpa using hf
    cases hl : svc.Labels with
    | none =>
      rw [Apply_of_found_nil t e i svc h hl] at hreg
      have := congrArg List.length hreg
      simp at this
    | some labels =>
      rw [Apply_of_found_labels t e i svc labels h hl] at hreg
      have := List.append_cancel_left hreg
      simp only [List.cons.injEq, and_true] at this
      rw [← this, hname]

/-- The run of a PostProcessor on an Environment where `GetContainer` finds the integration
container. -/
theorem PostProcessor_run_of_found (p : PostProcessor) (environment : Environment)
    (i j : Nat) (x : Container)
    (h : environment.Resources.GetContainer (fun c => c.Name == environment.Integration.Name) =
      some (i, j, x)) :
    p.run environment =
      (({ environment with
          Resources := environment.Resources.setContainer i j
            { x with Ports := x.Ports ++
              [{ Name := p.t.ContainerPortName, ContainerPort := int32 p.t.ContainerPort,
                 Protocol := ProtocolTCP }] } } : Environment).SetCondition
        IntegrationConditionServiceAvailable ConditionTrue
        IntegrationConditionServiceAvailableReason
        (p.svcName ++ "(" ++ p.port.Name ++ "/" ++ formatInt p.port.Port ++ ") -> " ++
          x.Name ++ "(" ++ p.t.ContainerPortName ++ "/" ++ formatInt p.t.ContainerPort ++ ")"),
        none) := by
  simp [PostProcessor.run, h]

/-- The run of a PostProcessor on an Environment where `GetContainer` finds nothing. -/
theorem PostProcessor_run_of_not_found (p : PostProcessor) (environment : Environment)
    (h : environment.Resources.GetContainer (fun c => c.Name == environment.Integration.Name) =
      none) :
    p.run environment =
      (environment,
        some { Reason := "", Message := "cannot add " ++ p.t.ContainerPortName ++
          " container port: no integration container" }) := by
  simp [PostProcessor.run, h]

/-- Claim C13: a PostProcessor of the service trait returns an error exactly when no staged
Deployment-like object holds a container named as the Integration; when it returns an error
the whole Environment, its ResourceSet and the Conditions of its Integration included, is as
it was, and the error names the container port that could not be added. -/
theorem PostProcessor_run_error_iff (p : PostProcessor) (environment : Environment) :
    ((p.run environment).2 ≠ none ↔
        ∀ d x, Resource.deployment d ∈ environment.Resources → x ∈ d.Containers →
          x.Name ≠ environment.Integration.Name) ∧
      ((p.run environment).2 ≠ none →
        (p.run environment).1 = environment ∧
          (p.run environment).1.Resources = environment.Resources ∧
          (p.run environment).1.Integration.Status.Conditions =
            environment.Integration.Status.Conditions ∧
          (p.run environment).2 =
            some { Reason := "", Message := "cannot add " ++ p.t.ContainerPortName ++
              " container port: no integration container" }) := by
  cases h : environment.Resources.GetContainer
      (fun c => c.Name == environment.Integration.Name) with
  | none =>
    rw [PostProcessor_run_of_not_found p environment h]
    have hall := (GetContainer_eq_none_iff _ _).mp h
    refine ⟨⟨fun _ d x hd hx => ?_, fun _ => by simp⟩, fun _ => ⟨rfl, rfl, rfl, rfl⟩⟩
    simpa using hall d hd x hx
  | some q =>
    obtain ⟨i, j, x⟩ := q
    rw [PostProcessor_run_of_found p environment i j x h]
    refine ⟨⟨fun hne => absurd rfl hne, fun hall => ?_⟩, fun hne => absurd rfl hne⟩
    have hnone : environment.Resources.GetContainer
        (fun c => c.Name == environment.Integration.Name) = none := by
      rw [GetContainer_eq_none_iff]
      intro d hd x' hx'
      simpa using hall d x' hd hx'
    rw [hnone] at h
    cases h

/-- Witness of claim C13: on the Environment with nothing staged the PostProcessor of the
default trait returns its error and leaves the Environment as it was. -/
theorem PostProcessor_run_error_iff_witness :
    ((samplePostProcessor newServiceTrait "routes").run
        (sampleEnvironment IntegrationPhaseDeploying)).1 =
      sampleEnvironment IntegrationPhaseDeploying ∧
    ((samplePostProcessor newServiceTrait "routes").run
        (sampleEnvironment IntegrationPhaseDeploying)).2 =
      some { Reason := "",
             Message := "cannot add http container port: no integration container" } :=
  have h := (PostProcessor_run_error_iff (samplePostProcessor newServiceTrait "routes")
    (sampleEnvironment IntegrationPhaseDeploying)).2
    (((PostProcessor_run_error_iff (samplePostProcessor newServiceTrait "routes")
      (sampleEnvironment IntegrationPhaseDeploying)).1).mpr (by simp [sampleEnvironment]))
  ⟨h.1, h.2.2.2.trans (by decide)⟩

/-- Claim C12, as amended: let `p` be the PostProcessor `Apply` registered for the trait on
an Environment `e`.  On every Environment holding a container named as its Integration, `p`
returns no error; the first such container keeps its earlier ports and gets exactly one more
(name `ContainerPortName`, protocol TCP, number `int32(ContainerPort)`, which is
`ContainerPort` whenever that lies in the range of `int32`), and nothing else is staged or
changed; and afterwards exactly one ServiceAvailable Condition is held, of status True, with
message "<service>(<port name>/<int32(Port)>) -> <container>(<container port
name>/<ContainerPort>)", the service and the container both named as the Integration. -/
theorem PostProcessor_run_container_present (t : serviceTrait) (e : Environment)
    (p : PostProcessor) (environment : Environment)
    (hreg : (t.Apply e).env.PostProcessors = e.PostProcessors ++ [p])
    (hc : ∃ d x, Resource.deployment d ∈ environment.Resources ∧ x ∈ d.Containers ∧
      x.Name = environment.Integration.Name) :
    (p.run environment).2 = none ∧
      (∃ (i j : Nat) (x : Container),
        environment.Resources.GetContainer
            (fun c => c.Name == environment.Integration.Name) = some (i, j, x) ∧
          (p.run environment).1.Resources = environment.Resources.setContainer i j
            { x with Ports := x.Ports ++
              [{ Name := t.ContainerPortName, ContainerPort := int32 t.ContainerPort,
                 Protocol := "TCP" }] } ∧
          (p.run environment).1.Resources.GetContainer
              (fun c => c.Name == environment.Integration.Name) =
            some (i, j, { x with Ports := x.Ports ++
              [{ Name := t.ContainerPortName, ContainerPort := int32 t.ContainerPort,
                 Protocol := "TCP" }] })) ∧
      (p.run environment).1.Integration.Status.GetCondition "ServiceAvailable" =
        some { Kind := "ServiceAvailable", Status := "True", Reason := "ServiceAvailable",
               Message := e.Integration.Name ++ "(" ++ t.PortName ++ "/" ++
                 formatInt (int32 t.Port) ++ ") -> " ++ environment.Integration.Name ++ "(" ++
                 t.ContainerPortName ++ "/" ++ formatInt t.ContainerPort ++ ")" } ∧
      ((p.run environment).1.Integration.Status.Conditions.filter
        (fun c => c.Kind == "ServiceAvailable")).length = 1 ∧
      (-2 ^ 31 ≤ t.ContainerPort → t.ContainerPort < 2 ^ 31 →
        int32 t.ContainerPort = t.ContainerPort) := by
  have hp := Apply_registered t e p hreg
  subst hp
  cases h : environment.Resources.GetContainer
      (fun c => c.Name == environment.Integration.Name) with
  | none =>
    obtain ⟨d, x, hd, hx, hname⟩ := hc
    have := (GetContainer_eq_none_iff _ _).mp h d hd x hx
    simp [hname] at this
  | some q =>
    obtain ⟨i, j, x⟩ := q
    have hset := GetContainer_setContainer environment.Resources
      (fun c => c.Name == environment.Integration.Name) i j x
      { x with Ports := x.Ports ++
        [{ Name := t.ContainerPortName, ContainerPort := int32 t.ContainerPort,
           Protocol := "TCP" }] } h
    have hfx : x.Name = environment.Integration.Name := by
      simpa using GetContainer_accepts _ _ i j x h
    rw [PostProcessor_run_of_found _ environment i j x h]
    refine ⟨rfl, ⟨i, j, x, rfl, rfl, (hset (by simpa using hfx)).2⟩, ?_, ?_,
      int32_of_inRange t.ContainerPort⟩
    · rw [hfx]
      exact SetCondition_GetCondition _ _ _ _ _
    · exact SetCondition_unique _ _ _ _ _

/-- Witness of claim C12: the PostProcessor the default trait registers on the Environment
with the integration container staged, run on that Environment. -/
theorem PostProcessor_run_container_present_witness :
    ((samplePostProcessor newServiceTrait "routes").run stagedEnvironment).2 = none ∧
      ((samplePostProcessor newServiceTrait "routes").run
        stagedEnvironment).1.Integration.Status.GetCondition "ServiceAvailable" =
        some { Kind := "ServiceAvailable", Status := "True", Reason := "ServiceAvailable",
               Message := "routes(http/80) -> routes(http/8080)" } ∧
      int32 newServiceTrait.ContainerPort = 8080 :=
  have h := PostProcessor_run_container_present newServiceTrait stagedEnvironment
    (samplePostProcessor newServiceTrait "routes") stagedEnvironment (by decide)
    ⟨{ Name := "routes", Containers := [{ Name := "routes", Ports := [] }] },
      { Name := "routes", Ports := [] }, by decide, by decide, rfl⟩
  ⟨h.1, h.2.2.1.trans (by decide), h.2.2.2.2 (by decide) (by decide)⟩

/-- Claim C12 as stated fails: with `ContainerPort` set to 4294975376 the PostProcessor that
`Apply` registered gives the integration container a port of number 8080, not the trait's
`ContainerPort`. -/
theorem PostProcessor_port_truncated :
    (wideContainerPortTrait.Apply stagedEnvironment).env.PostProcessors =
        stagedEnvironment.PostProcessors ++
          [samplePostProcessor wideContainerPortTrait "routes"] ∧
      (((samplePostProcessor wideContainerPortTrait "routes").run
        stagedEnvironment).1.Resources.containers.map
          (fun x => x.Ports.map (fun q => q.ContainerPort))) = [[8080]] ∧
      wideContainerPortTrait.ContainerPort = 4294975376 ∧
      ¬ ((((samplePostProcessor wideContainerPortTrait "routes").run
        stagedEnvironment).1.Resources.containers.map
          (fun x => x.Ports.map (fun q => q.ContainerPort))) =
        [[wideContainerPortTrait.ContainerPort]]) := by
  decide

/-! ## Dependencies trait: theorems -/

/-- Claim C16: on every Environment the `Configure` of the Dependencies trait returns no
error and leaves the Environment as it was, and it returns enabled=true exactly when the
phase of the Integration is Initialization; in particular it returns enabled=false when no
phase is set and in the empty phase `IntegrationPhaseNone`. -/
theorem dependencies_Configure_applicability (t : dependenciesTrait) (e : Environment) :
    (t.Configure e).err = none ∧
      (t.Configure e).env = e ∧
      ((t.Configure e).enabled = true ↔
        e.Integration.Status.Phase = IntegrationPhaseInitialization) ∧
      (t.Configure { e with Integration := { e.Integration with
        Status := { e.Integration.Status with Phase := "" } } }).enabled = false ∧
      (t.Configure { e with Integration := { e.Integration with
        Status := { e.Integration.Status with Phase := IntegrationPhaseNone } } }).enabled =
        false ∧
      (t.Configure { e with Integration := { e.Integration with
        Status := { e.Integration.Status with
          Phase := IntegrationPhaseInitialization } } }).enabled = true := by
  refine ⟨rfl, rfl, ?_, ?_, ?_, ?_⟩
  · simp [dependenciesTrait.Configure, Environment.IntegrationInPhase]
  all_goals
    simp [dependenciesTrait.Configure, Environment.IntegrationInPhase,
      IntegrationPhaseInitialization, IntegrationPhaseNone]

/-- A coordinate is collected exactly when a Source requires it, or it is the dependency of
the runtime, or it is declared explicitly. -/
theorem mem_collect (x : DependenciesExternal) (e : Environment) (d : String) :
    d ∈ dependenciesTrait.collect x e ↔
      (∃ src ∈ e.Integration.Spec.Sources, d ∈ (x.Extract e.CamelCatalog src).Dependencies) ∨
        d = x.RuntimeDependency ∨ d ∈ e.Integration.Spec.Dependencies := by
  simp [dependenciesTrait.collect, List.mem_flatMap, or_assoc]

/-- Claim C17: the dependency list the `Apply` of the Dependencies trait writes to the
Integration status (whatever the phase, Initialization in particular) has no repeated
element and holds exactly the coordinates some Source requires through the catalog, the
fixed dependency of the runtime and the explicitly declared ones; declaring the Sources or
the explicit dependencies in another order gives the same elements; a second `Apply` on
the Environment the first one left writes the identical list; and no error is returned. -/
theorem dependencies_Apply_union (t : dependenciesTrait) (x : DependenciesExternal)
    (e : Environment) :
    (t.Apply x e).err = none ∧ (t.Apply x e).fault = false ∧
      (t.Apply x e).env.Integration.Status.Dependencies.Nodup ∧
      (∀ d, d ∈ (t.Apply x e).env.Integration.Status.Dependencies ↔
        (∃ src ∈ e.Integration.Spec.Sources,
            d ∈ (x.Extract e.CamelCatalog src).Dependencies) ∨
          d = x.RuntimeDependency ∨ d ∈ e.Integration.Spec.Dependencies) ∧
      (∀ sources explicit, sources.Perm e.Integration.Spec.Sources →
        explicit.Perm e.Integration.Spec.Dependencies →
        (t.Apply x { e with Integration := { e.Integration with
          Spec := { Sources := sources, Dependencies := explicit } } }
          ).env.Integration.Status.Dependencies.Perm
          (t.Apply x e).env.Integration.Status.Dependencies) ∧
      (t.Apply x (t.Apply x e).env).env.Integration.Status.Dependencies =
        (t.Apply x e).env.Integration.Status.Dependencies := by
  refine ⟨rfl, rfl, List.nodup_dedup _, ?_, ?_, rfl⟩
  · intro d
    simp only [dependenciesTrait.Apply, List.mem_dedup]
    exact mem_collect x e d
  · intro sources explicit hs hd
    simp only [dependenciesTrait.Apply]
    rw [List.perm_ext_iff_of_nodup (List.nodup_dedup _) (List.nodup_dedup _)]
    intro d
    simp only [List.mem_dedup, mem_collect]
    constructor
    · rintro (⟨src, hsrc, hmem⟩ | h | h)
      · exact Or.inl ⟨src, hs.mem_iff.mp hsrc, hmem⟩
      · exact Or.inr (Or.inl h)
      · exact Or.inr (Or.inr (hd.mem_iff.mp h))
    · rintro (⟨src, hsrc, hmem⟩ | h | h)
      · exact Or.inl ⟨src, hs.mem_iff.mpr hsrc, hmem⟩
      · exact Or.inr (Or.inl h)
      · exact Or.inr (Or.inr (hd.mem_iff.mpr h))

/-- Witness of claim C17: the Java source using direct and log under the JVM runtime gives
camel:core, camel:direct, camel:log and runtime:jvm; with the explicit dependencies
camel:undertow and org.foo:bar it gives the union, in whichever order they are declared. -/
theorem dependencies_Apply_union_witness :
    (newDependenciesTrait.Apply sampleDependenciesExternal
        (dependenciesEnvironment [])).env.Integration.Status.Dependencies =
      ["camel:core", "camel:direct", "camel:log", "runtime:jvm"] ∧
    (newDependenciesTrait.Apply sampleDependenciesExternal
        (dependenciesEnvironment ["camel:undertow", "org.foo:bar"])
      ).env.Integration.Status.Dependencies =
      ["camel:core", "camel:direct", "camel:log", "runtime:jvm", "camel:undertow",
        "org.foo:bar"] ∧
    (newDependenciesTrait.Apply sampleDependenciesExternal
        (dependenciesEnvironment ["org.foo:bar", "camel:undertow"])
      ).env.Integration.Status.Dependencies.Perm
      (newDependenciesTrait.Apply sampleDependenciesExternal
        (dependenciesEnvironment ["camel:undertow", "org.foo:bar"])
      ).env.Integration.Status.Dependencies :=
  ⟨by decide, by decide,
    (dependencies_Apply_union newDependenciesTrait sampleDependenciesExternal
      (dependenciesEnvironment ["camel:undertow", "org.foo:bar"])).2.2.2.2.1
      [requestJava] ["org.foo:bar", "camel:undertow"] (List.Perm.refl _)
      (List.Perm.swap _ _ _)⟩

end CamelK
